import Mathlib

/-!
RV32-verilog: the execution harness `RVGUI::CPU`.

A shallow embedding of `src/gui/CPU.cpp` (and of the argument validation of
`src/CPU_sim.cpp`).

Conventions of the embedding.

* The harness talks to its stores through raw pointers (`memory.get() + offset`,
  `pointer + address`) and compares those pointers with each other in the store
  phase of `CPU::tick`.  The process address space is therefore modelled as one
  byte map `Heap`, and `memory`, `framebuffer` and `instructions` are the
  addresses held by the three `unique_ptr` members, `0` being `nullptr`.
* Unsigned machine integers are natural numbers.  32-bit arithmetic that can
  wrap is reduced modulo `2 ^ 32` where the source computes it.  Pointer-sized
  sums are exact: no allocation reaches the end of the address space.
* The host is little-endian (`memcpy` of a `Word` moves its low byte first).
* The headers `CPU.h` and `Util.h` and the Verilated `VCPU` class are generated or
  declared elsewhere.  Field types are those of the setters of `CPU::Options`
  (`uint32_t` dimensions, `Word = uint32_t`, `int32_t` time offset, `size_t`
  memory size); the core model is a parameter of every operation that
  evaluates it.
* A C++ exception does not roll the object back, so every operation returns the
  state it leaves behind together with its result.
-/

namespace RVGUI

/-! ## The address space -/

/-- The process address space: one byte per address. -/
abbrev Heap := Nat → Nat

/-- Reading one `uint8_t`. -/
def peek (h : Heap) (p : Nat) : Nat := h p % 256

/-- Writing one `uint8_t`. -/
def poke (h : Heap) (p b : Nat) : Heap := fun q => if q = p then b % 256 else h q

/-- Reading a `Word` (`uint32_t`) through a pointer, little-endian. -/
def readWord (h : Heap) (p : Nat) : Nat :=
  peek h p + 256 * peek h (p + 1) + 65536 * peek h (p + 2) + 16777216 * peek h (p + 3)

/-- The call `std::memcpy(dst, &value, n)` for an integer object `value`: its `n` low
bytes, least significant first. -/
def memcpyFromWord (h : Heap) (dst value : Nat) : Nat → Heap
  | 0 => h
  | n + 1 => poke (memcpyFromWord h dst value n) (dst + n) (value / 256 ^ n)

/-- The call `std::memcpy(dst, data, data.size())` for a byte buffer. -/
def memcpyBytes (h : Heap) (dst : Nat) : List Nat → Heap
  | [] => h
  | b :: rest => memcpyBytes (poke h dst b) (dst + 1) rest

/-- Value-initialisation of a fresh array, `new uint8_t[n]()`, at address `p`. -/
def zeroFill (h : Heap) (p n : Nat) : Heap := fun q => if p ≤ q ∧ q < p + n then 0 else h q

/-! ## The core model and its pins -/

/-- The output pins of the Verilated core that the harness reads. -/
structure Outputs where
  o_pc : Nat
  o_addr : Nat
  o_load : Nat
  o_write : Nat
  o_memsize : Nat
  o_mem : Nat
deriving DecidableEq, Repr

/-- The Verilated model object: input pins, output pins and whatever else the model
keeps (`internal`). -/
structure VCPU (σ : Type) where
  i_clk : Nat
  i_inst : Nat
  i_mem : Nat
  i_pcload : Nat
  i_pc : Nat
  i_daddr : Nat
  i_dload : Nat
  i_ddata : Nat
  o_pc : Nat
  o_addr : Nat
  o_load : Nat
  o_write : Nat
  o_memsize : Nat
  o_mem : Nat
  internal : σ

/-- The behaviour of `VCPU::eval`: from the whole object it computes new outputs and new
internals.  It cannot touch the input pins. -/
abbrev Model (σ : Type) := VCPU σ → Outputs × σ

/-- The call `vcpu->eval()`. -/
def VCPU.eval {σ : Type} (m : Model σ) (v : VCPU σ) : VCPU σ :=
  { v with
    o_pc := (m v).1.o_pc
    o_addr := (m v).1.o_addr
    o_load := (m v).1.o_load
    o_write := (m v).1.o_write
    o_memsize := (m v).1.o_memsize
    o_mem := (m v).1.o_mem
    internal := (m v).2 }

/-! ## Options, failures, harness state -/

/-- The structure `CPU::Options`. -/
structure Options where
  programFilename : String
  memorySize : Nat
  dataFilename : String
  dataOffset : Nat
  separateInstructions : Bool
  timeOffset : Int
  useTimeOffset : Bool
  width : Nat
  height : Nat
  mmioOffset : Nat

/-- The exceptions thrown by the harness, plus the one trap it can run into. -/
inductive Fault where
  /-- Thrown as `std::runtime_error("CPU isn't initialized")`. -/
  | cpuNotInitialized
  /-- Thrown as `std::runtime_error("CPU memory isn't initialized")`. -/
  | memoryNotInitialized
  /-- Thrown as `std::runtime_error("CPU instructions array isn't initialized")`. -/
  | instructionsNotInitialized
  /-- Thrown as `std::out_of_range("Framebuffer read of size 4 out of range (..)")`. -/
  | framebufferReadOutOfRange (pointer : Nat)
  /-- Thrown as `std::out_of_range("Memory read of size 4 out of range (..)")`. -/
  | memoryReadOutOfRange (pointer : Nat)
  /-- Thrown as `std::out_of_range("Write of size N out of range (..)")`. -/
  | writeOutOfRange (size pointer : Nat)
  /-- Thrown as `std::invalid_argument("Exactly one of width and height is zero")`. -/
  | invalidDimensions
  /-- Thrown as `std::runtime_error("Program filename is empty")`. -/
  | programFilenameEmpty
  /-- Thrown as `std::runtime_error("Failed to open program for reading")`. -/
  | programOpenFailed
  /-- Thrown by `std::filesystem::file_size` as `std::filesystem::filesystem_error`. -/
  | filesystemError (path : String)
  /-- Not an exception: `x % 0`, on which the process traps. -/
  | divisionByZero
deriving DecidableEq, Repr

/-- The faults that are `std::out_of_range`. -/
def Fault.isOutOfRange : Fault → Bool
  | .framebufferReadOutOfRange _ => true
  | .memoryReadOutOfRange _ => true
  | .writeOutOfRange _ _ => true
  | _ => false

/-- The faults that report a rejected configuration (`std::invalid_argument`). -/
def Fault.isConfigurationError : Fault → Bool
  | .invalidDimensions => true
  | _ => false

/-- The object `RVGUI::CPU` together with the address space its pointers refer to. -/
structure CPU (σ : Type) where
  options : Options
  vcpu : Option (VCPU σ)
  memory : Nat
  framebuffer : Nat
  framebufferSize : Nat
  instructions : Nat
  instructionCount : Nat
  count : Nat
  start : Nat
  end_ : Nat
  heap : Heap

/-- What a member function leaves behind: the state, and its return value or the
exception that left it. -/
structure Outcome (σ α : Type) where
  state : CPU σ
  result : Except Fault α

/-- The three readings of `high_resolution_clock::now()` (in ms) a step can take. -/
structure Clock where
  atStart : Nat
  atStamp : Nat
  atEnd : Nat

/-- Byte `i` of Memory, `memory[i]`. -/
def CPU.memoryByte {σ : Type} (s : CPU σ) (i : Nat) : Nat := peek s.heap (s.memory + i)

/-- Byte `i` of the Framebuffer, `framebuffer[i]`. -/
def CPU.framebufferByte {σ : Type} (s : CPU σ) (i : Nat) : Nat :=
  peek s.heap (s.framebuffer + i)

/-- Word `i` of the instruction source as FETCH reads it: `instructions[i]` in separated
mode, `reinterpret_cast<Word *>(memory.get())[i]` otherwise. -/
def CPU.instructionWord {σ : Type} (s : CPU σ) (i : Nat) : Nat :=
  if s.options.separateInstructions then readWord s.heap (s.instructions + 4 * i)
  else readWord s.heap (s.memory + 4 * i)

/-! ## `CPU::tick` -/

/-- The width in bytes of a store with width code `o_memsize` (the `memcpy` sizes of the
`switch` in the store phase); `0` for the `default` branch. -/
def storeWidth (code : Nat) : Nat :=
  if code = 1 then 1 else if code = 2 then 2 else if code = 3 then 4 else 0

/-- Lines 96-115 of `CPU.cpp`: the load phase, run on the outputs of the first `eval`. -/
def loadPhase {σ : Type} (s : CPU σ) (v : VCPU σ) : Except Fault (VCPU σ) :=
  if v.o_load ≠ 0 then
    if s.options.mmioOffset ≤ v.o_addr then
      let ptrsum := v.o_addr - s.options.mmioOffset
      if ¬ (0 ≤ ptrsum ∧ ptrsum + 3 < s.framebufferSize) then
        .error (.framebufferReadOutOfRange (s.framebuffer + ptrsum))
      else
        .ok { v with i_mem := readWord s.heap (s.framebuffer + v.o_addr - s.options.mmioOffset) }
    else if s.options.memorySize = 0 then
      .error .divisionByZero
    else
      let ptr := v.o_addr % s.options.memorySize
      if ¬ (0 ≤ ptr ∧ ptr + 3 < s.options.memorySize) then
        .error (.memoryReadOutOfRange (s.memory + ptr))
      else
        .ok { v with i_mem := readWord s.heap (s.memory + v.o_addr % s.options.memorySize) }
  else
    .ok v

/-- The store the post-edge address selects (lines 124-130): `framebuffer.get()` or
`memory.get()`. -/
def storePointer {σ : Type} (s : CPU σ) (v : VCPU σ) : Nat :=
  if s.options.mmioOffset ≤ v.o_addr then s.framebuffer else s.memory

/-- The address inside the selected store (lines 124-130). -/
def storeAddress {σ : Type} (s : CPU σ) (v : VCPU σ) : Nat :=
  if s.options.mmioOffset ≤ v.o_addr then v.o_addr - s.options.mmioOffset else v.o_addr

/-- The test guarding each `memcpy` of the store phase (`last` is the constant added to
`ptrsum`: none, `1` or `3`): true when the exception is thrown. -/
def writeRejected {σ : Type} (s : CPU σ) (ptrsum last : Nat) : Bool :=
  let memstart := s.memory
  let memend := memstart + s.options.memorySize
  let fbstart := s.framebuffer
  let fbend := fbstart + s.framebufferSize
  !(decide (memstart ≤ ptrsum) && decide (ptrsum + last < memend))
    && !(decide (fbstart ≤ ptrsum) && decide (ptrsum + last < fbend))

/-- Lines 121-155 of `CPU.cpp`: the store phase, run on the outputs after the clock
edge.  It yields the address space after the store. -/
def storePhase {σ : Type} (s : CPU σ) (v : VCPU σ) : Except Fault Heap :=
  let pointer := storePointer s v
  let address := storeAddress s v
  if v.o_write ≠ 0 then
    let ptrsum := pointer + address
    if v.o_memsize = 1 then
      if writeRejected s ptrsum 0 then .error (.writeOutOfRange 1 ptrsum)
      else .ok (memcpyFromWord s.heap (pointer + address) v.o_mem 1)
    else if v.o_memsize = 2 then
      if writeRejected s ptrsum 1 then .error (.writeOutOfRange 2 ptrsum)
      else .ok (memcpyFromWord s.heap (pointer + address) v.o_mem 2)
    else if v.o_memsize = 3 then
      if writeRejected s ptrsum 3 then .error (.writeOutOfRange 4 ptrsum)
      else .ok (memcpyFromWord s.heap (pointer + address) v.o_mem 4)
    else
      .ok s.heap
  else
    .ok s.heap

/-- Lines 77-84: the start time is taken once, and the time stamp is written through
`memory.get() + options.timeOffset` when the feature is on. -/
def stampTime {σ : Type} (clk : Clock) (s : CPU σ) : CPU σ :=
  let s := if s.start = 0 then { s with start := clk.atStart } else s
  if s.options.useTimeOffset then
    { s with heap := memcpyFromWord s.heap (Int.toNat (s.memory + s.options.timeOffset))
                       (clk.atStamp % 2 ^ 32) 4 }
  else s

/-- Lines 86-94: clock low, the instruction word is fetched at `o_pc / sizeof(Word)` and
the core is evaluated. -/
def fetchEval {σ : Type} (m : Model σ) (s : CPU σ) (v : VCPU σ) : VCPU σ :=
  VCPU.eval m { v with i_clk := 0, i_inst := s.instructionWord (v.o_pc / 4) }

/-- Lines 117-119: evaluate, clock high, evaluate. -/
def clockEdge {σ : Type} (m : Model σ) (v : VCPU σ) : VCPU σ :=
  VCPU.eval m { VCPU.eval m v with i_clk := 1 }

/-- The function `CPU::tick`. -/
def tick {σ : Type} (m : Model σ) (clk : Clock) (s : CPU σ) : Outcome σ Bool :=
  match s.vcpu with
  | none => ⟨s, .error .cpuNotInitialized⟩
  | some v =>
    if s.memory = 0 then ⟨s, .error .memoryNotInitialized⟩
    else if s.options.separateInstructions && s.instructions == 0 then
      ⟨s, .error .instructionsNotInitialized⟩
    else
      let s := stampTime clk s
      let v := fetchEval m s v
      match loadPhase s v with
      | .error e => ⟨{ s with vcpu := some v }, .error e⟩
      | .ok v =>
        let v := clockEdge m v
        match storePhase s v with
        | .error e => ⟨{ s with vcpu := some v }, .error e⟩
        | .ok heap =>
          let s := { s with vcpu := some v, heap := heap, count := s.count + 1 }
          if v.i_inst = 0x6f then ⟨{ s with end_ := clk.atEnd }, .ok false⟩
          else ⟨s, .ok true⟩

/-! ## Construction: `CPU::Options`, the Loader, `CPU::init` -/

/-- The constructor `CPU::Options::Options(program_filename, memory_size)`; the other
fields take the values given here. -/
def Options.new (program_filename : String) (memory_size : Nat) (rest : Options) : Options :=
  { rest with programFilename := program_filename, memorySize := memory_size }

/-- The setter `setDataFilename(value)`. -/
def Options.setDataFilename (o : Options) (value : String) : Options :=
  { o with dataFilename := value }

/-- The setter `setDataFilename(value, Word offset)`. -/
def Options.setDataFilenameAt (o : Options) (value : String) (offset : Nat) : Options :=
  { o with dataFilename := value, dataOffset := offset % 2 ^ 32 }

/-- The setter `setDataOffset(Word value)`. -/
def Options.setDataOffset (o : Options) (value : Nat) : Options :=
  { o with dataOffset := value % 2 ^ 32 }

/-- The setter `setSeparateInstructions(bool value)`. -/
def Options.setSeparateInstructions (o : Options) (value : Bool) : Options :=
  { o with separateInstructions := value }

/-- The setter `setTimeOffset(int32_t value)`. -/
def Options.setTimeOffset (o : Options) (value : Int) : Options :=
  { o with timeOffset := (value + 2 ^ 31) % 2 ^ 32 - 2 ^ 31, useTimeOffset := true }

/-- The setter `setWidth(uint32_t value)`. -/
def Options.setWidth (o : Options) (value : Nat) : Options :=
  { o with width := value % 2 ^ 32 }

/-- The setter `setHeight(uint32_t value)`. -/
def Options.setHeight (o : Options) (value : Nat) : Options :=
  { o with height := value % 2 ^ 32 }

/-- The setter `setDimensions(uint32_t width_, uint32_t height_)`. -/
def Options.setDimensions (o : Options) (width_ height_ : Nat) : Options :=
  { o with width := width_ % 2 ^ 32, height := height_ % 2 ^ 32 }

/-- The setter `setMMIOOffset(Word value)`. -/
def Options.setMMIOOffset (o : Options) (value : Nat) : Options :=
  { o with mmioOffset := value % 2 ^ 32 }

/-- What the file system holds under a name. -/
inductive File where
  /-- No such file: `std::filesystem::file_size` throws. -/
  | missing
  /-- The file exists (with this size) but cannot be opened for reading. -/
  | unreadable (size : Nat)
  /-- The file is there, with these bytes. -/
  | readable (bytes : List Nat)
deriving DecidableEq, Repr

/-- The file system the Loader reads from. -/
abbrev FileSystem := String → File

/-- The addresses `operator new[]` hands out for the three arrays of the harness. -/
structure Allocator where
  memoryAt : Nat
  framebufferAt : Nat
  instructionsAt : Nat

/-- Sequencing of two steps of a member function: an exception ends it. -/
def Outcome.andThen {σ α : Type} (o : Outcome σ Unit) (f : CPU σ → Outcome σ α) :
    Outcome σ α :=
  match o.result with
  | .error e => ⟨o.state, .error e⟩
  | .ok _ => f o.state

/-- The function `CPU::resetMemory`: a fresh zeroed array of `memorySize` bytes. -/
def resetMemory {σ : Type} (a : Allocator) (s : CPU σ) : Outcome σ Unit :=
  ⟨{ s with memory := a.memoryAt, heap := zeroFill s.heap a.memoryAt s.options.memorySize },
    .ok ()⟩

/-- The function `CPU::initFramebuffer(int channels)`.  The product is formed in
`uint32_t`. -/
def initFramebuffer {σ : Type} (a : Allocator) (channels : Nat) (s : CPU σ) : Outcome σ Unit :=
  if s.options.width = 0 ∧ s.options.height = 0 then
    ⟨{ s with framebuffer := 0, framebufferSize := 0 }, .ok ()⟩
  else if s.options.width ≠ 0 ∧ s.options.height ≠ 0 then
    let size := (s.options.width * s.options.height % 2 ^ 32) * (channels % 2 ^ 32) % 2 ^ 32
    ⟨{ s with framebufferSize := size, framebuffer := a.framebufferAt,
              heap := zeroFill s.heap a.framebufferAt size }, .ok ()⟩
  else
    ⟨s, .error .invalidDimensions⟩

/-- The loops `for (i = 0; !file.eof() && i < n; ++i) file.read(dst + chunk * i, chunk)`
of the Loader, on a stream holding `bytes`.  Every bound `n` the Loader uses keeps
`chunk * n` within the file, so no read hits its end. -/
def fileReadLoop (chunk : Nat) (h : Heap) (dst : Nat) (bytes : List Nat) : Nat → Heap
  | 0 => h
  | n + 1 =>
    memcpyBytes (fileReadLoop chunk h dst bytes n) (dst + chunk * n)
      ((bytes.drop (chunk * n)).take chunk)

/-- The function `CPU::loadProgram`. -/
def loadProgram {σ : Type} (fs : FileSystem) (a : Allocator) (s : CPU σ) : Outcome σ Unit :=
  if s.options.programFilename = "" then ⟨s, .error .programFilenameEmpty⟩
  else
    match fs s.options.programFilename with
    | .missing => ⟨s, .error (.filesystemError s.options.programFilename)⟩
    | .unreadable _ => ⟨s, .error .programOpenFailed⟩
    | .readable bytes =>
      let filesize := bytes.length
      let s := { s with instructionCount := filesize / 4 }
      if s.options.separateInstructions then
        ⟨{ s with instructions := a.instructionsAt,
                  heap := fileReadLoop 4 s.heap a.instructionsAt bytes (filesize / 4) }, .ok ()⟩
      else
        ⟨{ s with instructions := 0,
                  heap := fileReadLoop 1 s.heap s.memory bytes filesize }, .ok ()⟩

/-- The function `CPU::loadData(void *data, size_t size, size_t offset)`, `data` pointing
to `size = data.length` bytes. -/
def loadData {σ : Type} (data : List Nat) (offset : Nat) (s : CPU σ) : Outcome σ Unit :=
  if s.memory = 0 then ⟨s, .error .memoryNotInitialized⟩
  else ⟨{ s with heap := memcpyBytes s.heap (s.memory + offset) data }, .ok ()⟩

/-- The function `CPU::loadData()`, which reads the data file to
`memory.get() + options.dataOffset`.  A stream that failed to open reads nothing. -/
def loadDataFile {σ : Type} (fs : FileSystem) (s : CPU σ) : Outcome σ Unit :=
  if s.options.dataFilename = "" then ⟨s, .ok ()⟩
  else
    match fs s.options.dataFilename with
    | .missing => ⟨s, .error (.filesystemError s.options.dataFilename)⟩
    | .unreadable _ => ⟨s, .ok ()⟩
    | .readable bytes =>
      ⟨{ s with heap := memcpyBytes s.heap (s.memory + s.options.dataOffset) bytes }, .ok ()⟩

/-- The function `CPU::initVCPU`; `fresh` is the model object `std::make_unique<VCPU>()`
creates. -/
def initVCPU {σ : Type} (m : Model σ) (fresh : VCPU σ) (s : CPU σ) : Outcome σ Unit :=
  if s.memory = 0 then ⟨s, .error .memoryNotInitialized⟩
  else if s.options.separateInstructions && s.instructions == 0 then
    ⟨s, .error .instructionsNotInitialized⟩
  else
    let v := { fresh with i_clk := 0, i_inst := 0x6f, i_daddr := 0x2, i_dload := 0x1,
                          i_ddata := (s.options.memorySize + 2 ^ 64 - 1) % 2 ^ 64 % 2 ^ 32 }
    let v := VCPU.eval m v
    let v := VCPU.eval m { v with i_clk := 1 }
    let v := { v with i_clk := 0, i_daddr := 0, i_dload := 0, i_ddata := 0 }
    let v := { v with i_inst := s.instructionWord 0 }
    let v := { v with i_mem := peek s.heap s.memory }
    ⟨{ s with vcpu := some (VCPU.eval m v) }, .ok ()⟩

/-- The function `CPU::init`. -/
def init {σ : Type} (m : Model σ) (fresh : VCPU σ) (fs : FileSystem) (a : Allocator)
    (s : CPU σ) : Outcome σ Unit :=
  (resetMemory a s).andThen fun s =>
  (initFramebuffer a 3 s).andThen fun s =>
  (loadProgram fs a s).andThen fun s =>
  (loadDataFile fs s).andThen fun s =>
  initVCPU m fresh s

/-- Modelled from the spec: the members of a `CPU` object before the constructor body
runs (the default member initialisers of `CPU.h`): no core, no arrays, cycle counter and
timing markers at `0`. -/
def CPU.blank {σ : Type} (options : Options) (heap : Heap) : CPU σ :=
  { options := options, vcpu := none, memory := 0, framebuffer := 0, framebufferSize := 0,
    instructions := 0, instructionCount := 0, count := 0, start := 0, end_ := 0, heap := heap }

/-- The constructor `CPU::CPU(const Options &)`. -/
def CPU.new {σ : Type} (m : Model σ) (fresh : VCPU σ) (fs : FileSystem) (a : Allocator)
    (heap : Heap) (options : Options) : Outcome σ Unit :=
  init m fresh fs a (CPU.blank options heap)

/-- The function `CPU::getPC`. -/
def getPC {σ : Type} (s : CPU σ) : Nat :=
  match s.vcpu with
  | some v => v.o_pc
  | none => 0

/-- The function `CPU::setPC(Word new_pc)`. -/
def setPC {σ : Type} (m : Model σ) (new_pc : Nat) (s : CPU σ) : CPU σ :=
  match s.vcpu with
  | some v =>
    let v := VCPU.eval m { v with i_clk := 0, i_pcload := 1, i_pc := new_pc % 2 ^ 32 }
    let v := VCPU.eval m { v with i_clk := 1 }
    { s with vcpu := some { v with i_pcload := 0 } }
  | none => s

/-- The checks `main` of `CPU_sim.cpp` makes on its arguments before it allocates
anything (lines 89-103): the exit status when it gives up, `none` when it goes on. -/
def simArgumentCheck (hflag pflag mflag : Bool) (offset memsize : Nat) : Option Nat :=
  if hflag then some 1
  else if !pflag || !mflag then some 1
  else if offset < memsize then some 1
  else none

/-! ## Core models used to exercise the harness -/

/-- A test-bench core: each `eval` presents the next entry of a script of outputs, and
keeps the outputs once the script is used up. -/
def scripted : Model (List Outputs) := fun v =>
  match v.internal with
  | [] => (⟨v.o_pc, v.o_addr, v.o_load, v.o_write, v.o_memsize, v.o_mem⟩, [])
  | o :: rest => (o, rest)

/-- A core that never drives its outputs away from what they are. -/
def idle : Model Unit := fun v =>
  (⟨v.o_pc, v.o_addr, v.o_load, v.o_write, v.o_memsize, v.o_mem⟩, ())

/-- A model object with every pin at `0`. -/
def VCPU.zero {σ : Type} (internal : σ) : VCPU σ :=
  { i_clk := 0, i_inst := 0, i_mem := 0, i_pcload := 0, i_pc := 0, i_daddr := 0,
    i_dload := 0, i_ddata := 0, o_pc := 0, o_addr := 0, o_load := 0, o_write := 0,
    o_memsize := 0, o_mem := 0, internal := internal }

/-! ## Vocabulary of the bus claims -/

/-- The byte range of a store, `[localAddress, localAddress + width)`, lies entirely
within the store the address selects. -/
def StoreInTarget {σ : Type} (s : CPU σ) (v : VCPU σ) : Prop :=
  storeAddress s v + storeWidth v.o_memsize ≤
    if s.options.mmioOffset ≤ v.o_addr then s.framebufferSize else s.options.memorySize

/-- The bytes a store would touch, counted from `pointer + address` as the store phase
forms it, lie entirely within the array of the store the address does not select. -/
def StoreInOther {σ : Type} (s : CPU σ) (v : VCPU σ) : Prop :=
  if s.options.mmioOffset ≤ v.o_addr then
    s.memory ≤ storePointer s v + storeAddress s v ∧
      storePointer s v + storeAddress s v + storeWidth v.o_memsize
        ≤ s.memory + s.options.memorySize
  else
    s.framebuffer ≤ storePointer s v + storeAddress s v ∧
      storePointer s v + storeAddress s v + storeWidth v.o_memsize
        ≤ s.framebuffer + s.framebufferSize

instance {σ : Type} (s : CPU σ) (v : VCPU σ) : Decidable (StoreInTarget s v) := by
  unfold StoreInTarget; infer_instance

instance {σ : Type} (s : CPU σ) (v : VCPU σ) : Decidable (StoreInOther s v) := by
  unfold StoreInOther; infer_instance

/-! ## Concrete harnesses -/

/-- Outputs of a core that requests nothing. -/
def quiet : Outputs := ⟨0, 0, 0, 0, 0, 0⟩

/-- Options of the example harness: 16 bytes of Memory, a 4 x 4 framebuffer, MMIO at
`0x80000000`, instructions fetched from Memory. -/
def exampleOptions : Options :=
  { programFilename := "prog.bin", memorySize := 16, dataFilename := "", dataOffset := 0,
    separateInstructions := false, timeOffset := 0, useTimeOffset := false,
    width := 4, height := 4, mmioOffset := 0x80000000 }

/-- An initialised harness around the scripted core: Memory is the 16 bytes at `0x10000`,
the Framebuffer the 48 bytes at `0x20000`, everything zero. -/
def exampleCPU (script : List Outputs) : CPU (List Outputs) :=
  { options := exampleOptions, vcpu := some (VCPU.zero script), memory := 0x10000,
    framebuffer := 0x20000, framebufferSize := 48, instructions := 0, instructionCount := 0,
    count := 0, start := 0, end_ := 0, heap := fun _ => 0 }

/-- Three clock readings. -/
def exampleClock : Clock := ⟨1000, 1001, 1002⟩

/-- The outputs of a core that stores `value` at `addr` with width code `code`. -/
def storing (addr code value : Nat) : Outputs := ⟨4, addr, 0, 1, code, value⟩

/-- The outputs of a core that requests a load at `addr`. -/
def loading (addr : Nat) : Outputs := ⟨4, addr, 1, 0, 0, 0⟩

/-- A step whose store leaves Memory at its end: one byte at address 16 of a 16-byte
Memory. -/
def pastMemoryScript : List Outputs := [quiet, storing 16 1 0xAB, storing 16 1 0xAB]

/-- A step whose store is addressed to Memory (`0x10000 < mmioOffset`) far beyond its 16
bytes; `memory.get() + 0x10000` is the first byte of the Framebuffer array. -/
def aliasingScript : List Outputs := [quiet, storing 0x10000 1 0xAB, storing 0x10000 1 0xAB]

/-- The example harness with `0xFF` in byte 1 of Memory. -/
def dirtyCPU (script : List Outputs) : CPU (List Outputs) :=
  { exampleCPU script with heap := poke (fun _ => 0) 0x10001 0xFF }

/-- A harness as `CPU::CPU` builds it from options with `mmioOffset = 8` below
`memorySize = 16` and no framebuffer. -/
def overlappingCPU (script : List Outputs) : CPU (List Outputs) :=
  { exampleCPU script with
    options := { exampleOptions with mmioOffset := 8, width := 0, height := 0 }
    framebuffer := 0
    framebufferSize := 0 }

/-- A step in which the core asks to load from address 0. -/
def loadScript : List Outputs := [loading 0, quiet, quiet]

/-- A step in which the core stores the word `0xDEADBEEF` at `mmioOffset`. -/
def deadbeefScript : List Outputs :=
  [quiet, storing 0x80000000 3 0xDEADBEEF, storing 0x80000000 3 0xDEADBEEF]

/-- The arrays of Memory and Framebuffer do not share a byte. -/
def ArraysApart {σ : Type} (s : CPU σ) : Prop :=
  s.memory + s.options.memorySize ≤ s.framebuffer
    ∨ s.framebuffer + s.framebufferSize ≤ s.memory

instance {σ : Type} (s : CPU σ) : Decidable (ArraysApart s) := by
  unfold ArraysApart; infer_instance

/-- A step in which the core asks to load from address 14 of the 16-byte Memory. -/
def badLoadScript : List Outputs := [loading 14, quiet, quiet]

/-- Options of the halt scenario: 1024 bytes of Memory, MMIO at `0x80000000`, no
framebuffer, instructions kept apart from Memory. -/
def haltOptions : Options :=
  { programFilename := "halt.bin", memorySize := 1024, dataFilename := "", dataOffset := 0,
    separateInstructions := true, timeOffset := 0, useTimeOffset := false,
    width := 0, height := 0, mmioOffset := 0x80000000 }

/-- A file system holding the one-instruction program `0x0000006F`. -/
def haltFiles : FileSystem := fun name =>
  if name = "halt.bin" then .readable [0x6f, 0, 0, 0] else .missing

/-- An allocator that places Memory at `0x10000`, the Framebuffer at `0x20000` and the
instruction array at `0x30000`. -/
def exampleAllocator : Allocator := ⟨0x10000, 0x20000, 0x30000⟩

/-- The harness `CPU::CPU` builds for the halt scenario, in an address space that held
`0xCC` everywhere, around a scripted core that requests nothing. -/
def haltCPU : CPU (List Outputs) :=
  (CPU.new scripted (VCPU.zero []) haltFiles exampleAllocator (fun _ => 0xCC) haltOptions).state

/-- Options whose MMIO region starts inside Memory: `mmioOffset = 512` below
`memorySize = 1024`. -/
def overlapOptions : Options := { haltOptions with mmioOffset := 512 }

/-- Two harness states that agree on everything construction looks at. -/
def Agree {σ : Type} (s t : CPU σ) : Prop :=
  s.options.width = t.options.width ∧ s.options.height = t.options.height
    ∧ s.options.programFilename = t.options.programFilename
    ∧ s.options.dataFilename = t.options.dataFilename
    ∧ s.options.separateInstructions = t.options.separateInstructions
    ∧ s.memory = t.memory ∧ s.instructions = t.instructions

/-- The harness `CPU::CPU` builds from `overlapOptions`. -/
def overlapCPU : CPU (List Outputs) :=
  (CPU.new scripted (VCPU.zero []) haltFiles exampleAllocator (fun _ => 0xCC)
    overlapOptions).state

/-- A harness about to get a framebuffer of 65536 x 65536 pixels. -/
def wideCPU : CPU (List Outputs) :=
  { exampleCPU [] with options := { exampleOptions with width := 65536, height := 65536 } }

/-- Options of a harness with a one-word instruction array kept apart from Memory. -/
def oneWordOptions : Options := { exampleOptions with separateInstructions := true }

/-- A harness whose instruction array (at `0x30000`) holds the single word `0x13`; the
four bytes after the array hold `0x6F`, and the core's program counter is 4. -/
def pastEndCPU : CPU (List Outputs) :=
  { exampleCPU [] with
    options := oneWordOptions
    vcpu := some { VCPU.zero [] with o_pc := 4 }
    instructions := 0x30000
    instructionCount := 1
    heap := poke (poke (fun _ => 0) 0x30000 0x13) 0x30004 0x6f }

/-- The number of words the instruction source holds: `instructionCount` in separated
mode, `memorySize / 4` otherwise. -/
def CPU.fetchCapacity {σ : Type} (s : CPU σ) : Nat :=
  if s.options.separateInstructions then s.instructionCount else s.options.memorySize / 4

/-- Options naming a data file to be copied to offset 14 of the 16-byte Memory. -/
def dataOptions : Options := { exampleOptions with dataFilename := "data.bin", dataOffset := 14 }

/-- A file system holding a four-byte data file. -/
def dataFiles : FileSystem := fun name =>
  if name = "data.bin" then .readable [1, 2, 3, 4] else .missing

/-- The example harness with `dataOptions`. -/
def dataCPU : CPU (List Outputs) := { exampleCPU [] with options := dataOptions }

/-- A file system holding a ten-byte program. -/
def tenByteFiles : FileSystem := fun name =>
  if name = "prog.bin" then .readable [0x13, 0, 0, 0, 0x93, 0, 0x10, 0, 0x6f, 0] else .missing

/-- A file system holding a twelve-byte program. -/
def twelveByteFiles : FileSystem := fun name =>
  if name = "prog.bin" then .readable [0x13, 0, 0, 0, 0x93, 0, 0x10, 0, 0x6f, 0, 0, 0]
  else .missing

/-- A harness in separated-instruction mode that has not loaded its program yet. -/
def unloadedCPU : CPU (List Outputs) := { exampleCPU [] with options := oneWordOptions }

/-! ## The standalone simulator: the stepping loop of `main` in `CPU_sim.cpp` -/

/-- The variables of `main` that its stepping loop uses (`fb` is `fb.data()`), with the
address space its pointers refer to. -/
structure Sim (σ : Type) where
  cpu : VCPU σ
  mem : Nat
  inst : Nat
  fb : Nat
  memsize : Nat
  offset : Nat
  vflag : Bool
  Tflag : Bool
  time_offset : Int
  count : Nat
  heap : Heap

/-- What one pass through the loop body leaves behind: the variables, and the trap if
the process died in it. -/
structure SimOutcome (σ : Type) where
  state : Sim σ
  trap : Option Fault

/-- Lines 188-194 of `CPU_sim.cpp`: the load, two unchecked `memcpy` calls. -/
def simLoad {σ : Type} (s : Sim σ) (heap : Heap) (cpu : VCPU σ) : Except Fault (VCPU σ) :=
  if cpu.o_load ≠ 0 then
    if cpu.o_addr ≥ s.offset then
      .ok { cpu with i_mem := readWord heap (s.fb + cpu.o_addr - s.offset) }
    else if s.memsize = 0 then
      .error .divisionByZero
    else
      .ok { cpu with i_mem := readWord heap (s.mem + cpu.o_addr % s.memsize) }
  else
    .ok cpu

/-- Lines 199-221 of `CPU_sim.cpp`: the store, unchecked. -/
def simStore {σ : Type} (s : Sim σ) (heap : Heap) (cpu : VCPU σ) : Heap :=
  let pointer := if cpu.o_addr ≥ s.offset then s.fb else s.mem
  let addr := if cpu.o_addr ≥ s.offset then cpu.o_addr - s.offset else cpu.o_addr
  if cpu.o_write ≠ 0 then
    if cpu.o_memsize = 1 then memcpyFromWord heap (pointer + addr) cpu.o_mem 1
    else if cpu.o_memsize = 2 then memcpyFromWord heap (pointer + addr) cpu.o_mem 2
    else if cpu.o_memsize = 3 then memcpyFromWord heap (pointer + addr) cpu.o_mem 4
    else heap
  else heap

/-- Lines 176-222 of `CPU_sim.cpp`: the body of the stepping loop; `now` is the clock
reading it takes when `Tflag` is set. -/
def simLoopBody {σ : Type} (m : Model σ) (now : Nat) (s : Sim σ) : SimOutcome σ :=
  let heap :=
    if s.Tflag then
      memcpyFromWord s.heap (Int.toNat (s.mem + 4 * s.time_offset)) (now % 2 ^ 32) 4
    else s.heap
  let cpu := { s.cpu with i_clk := 0 }
  let cpu :=
    if s.vflag then { cpu with i_inst := readWord heap (s.mem + 4 * (cpu.o_pc >>> 2)) }
    else { cpu with i_inst := readWord heap (s.inst + 4 * (cpu.o_pc >>> 2)) }
  let cpu := VCPU.eval m cpu
  match simLoad s heap cpu with
  | .error e => ⟨{ s with cpu := cpu, heap := heap }, some e⟩
  | .ok cpu =>
    let cpu := VCPU.eval m cpu
    let cpu := { cpu with i_clk := 1 }
    let cpu := VCPU.eval m cpu
    ⟨{ s with cpu := cpu, heap := simStore s heap cpu, count := s.count + 1 }, none⟩

/-- Line 175 of `CPU_sim.cpp`: the loop condition `cpu.i_inst != 0x0000006f`. -/
def simLoopCondition {σ : Type} (s : Sim σ) : Bool := s.cpu.i_inst != 0x0000006f

/-! ## Vocabulary of the refinement claim -/

/-- The harness and the simulator start from the same state: the same core object, the
same arrays at the same addresses with the same contents, the same instruction mode,
Memory size and MMIO offset, the same cycle count. -/
def SharedStart {σ : Type} (s : CPU σ) (sim : Sim σ) : Prop :=
  s.vcpu = some sim.cpu ∧ s.memory = sim.mem ∧ s.framebuffer = sim.fb
    ∧ s.instructions = sim.inst ∧ s.options.memorySize = sim.memsize
    ∧ s.options.mmioOffset = sim.offset ∧ s.options.separateInstructions = !sim.vflag
    ∧ s.count = sim.count ∧ s.heap = sim.heap

/-- The model object `v` with other internals. -/
def VCPU.withInternal {σ τ : Type} (v : VCPU σ) (x : τ) : VCPU τ :=
  { i_clk := v.i_clk, i_inst := v.i_inst, i_mem := v.i_mem, i_pcload := v.i_pcload,
    i_pc := v.i_pc, i_daddr := v.i_daddr, i_dload := v.i_dload, i_ddata := v.i_ddata,
    o_pc := v.o_pc, o_addr := v.o_addr, o_load := v.o_load, o_write := v.o_write,
    o_memsize := v.o_memsize, o_mem := v.o_mem, internal := x }

/-- The core model `m` with a log: it behaves as `m` and appends to the log, at every
`eval`, the model object it was evaluated on (the input pins the caller had set, the
outputs and internals the last evaluation had left). -/
def recording {σ : Type} (m : Model σ) : Model (σ × List (VCPU σ)) := fun v =>
  ((m (v.withInternal v.internal.1)).1,
    ((m (v.withInternal v.internal.1)).2, v.internal.2 ++ [v.withInternal v.internal.1]))

/-- The model object of a logging core without its log. -/
def VCPU.unlogged {σ : Type} (v : VCPU (σ × List (VCPU σ))) : VCPU σ :=
  v.withInternal v.internal.1

/-- The harness around the same core with an empty log. -/
def CPU.recorded {σ : Type} (s : CPU σ) : CPU (σ × List (VCPU σ)) :=
  { options := s.options, vcpu := s.vcpu.map fun v => v.withInternal (v.internal, []),
    memory := s.memory, framebuffer := s.framebuffer, framebufferSize := s.framebufferSize,
    instructions := s.instructions, instructionCount := s.instructionCount,
    count := s.count, start := s.start, end_ := s.end_, heap := s.heap }

/-- The simulator around the same core with an empty log. -/
def Sim.recorded {σ : Type} (s : Sim σ) : Sim (σ × List (VCPU σ)) :=
  { cpu := s.cpu.withInternal (s.cpu.internal, []), mem := s.mem, inst := s.inst, fb := s.fb,
    memsize := s.memsize, offset := s.offset, vflag := s.vflag, Tflag := s.Tflag,
    time_offset := s.time_offset, count := s.count, heap := s.heap }

/-- The sequence of core evaluations of one `CPU::tick`: the objects `eval` was called
on, in order. -/
def tickEvaluations {σ : Type} (m : Model σ) (clk : Clock) (s : CPU σ) : List (VCPU σ) :=
  match (tick (recording m) clk s.recorded).state.vcpu with
  | some v => v.internal.2
  | none => []

/-- The sequence of core evaluations of one pass through the simulator's loop body. -/
def simEvaluations {σ : Type} (m : Model σ) (now : Nat) (s : Sim σ) : List (VCPU σ) :=
  (simLoopBody (recording m) now s.recorded).state.cpu.internal.2

/-- The simulator started on the state of `exampleCPU`. -/
def exampleSim (script : List Outputs) : Sim (List Outputs) :=
  { cpu := VCPU.zero script, mem := 0x10000, inst := 0, fb := 0x20000, memsize := 16,
    offset := 0x80000000, vflag := true, Tflag := false, time_offset := 0, count := 0,
    heap := fun _ => 0 }

/-! ## Vocabulary of the revised store-load and unchecked-access claims -/

/-- The time stamp of a step, when the feature is on, is written inside Memory:
`0 <= timeOffset` and `timeOffset + 4 <= memorySize`. -/
def StampInMemory {σ : Type} (s : CPU σ) : Prop :=
  s.options.useTimeOffset = false
    ∨ (0 ≤ s.options.timeOffset ∧ s.options.timeOffset + 4 ≤ (s.options.memorySize : Int))

instance {σ : Type} (s : CPU σ) : Decidable (StampInMemory s) := by
  unfold StampInMemory; infer_instance

/-- The time stamp of a step, when the feature is on, is written inside Memory and none of
its four bytes, at `memory.get() + timeOffset`, is among the four bytes at address `p`. -/
def StampClearOf {σ : Type} (s : CPU σ) (p : Nat) : Prop :=
  s.options.useTimeOffset = false
    ∨ (0 ≤ s.options.timeOffset ∧ s.options.timeOffset + 4 ≤ (s.options.memorySize : Int)
        ∧ (Int.toNat (s.memory + s.options.timeOffset) + 4 ≤ p
            ∨ p + 4 ≤ Int.toNat (s.memory + s.options.timeOffset)))

instance {σ : Type} (s : CPU σ) (p : Nat) : Decidable (StampClearOf s p) := by
  unfold StampClearOf; infer_instance

/-- Two steps: a one-byte store of `0x41` at address 15, then a load at address 15. -/
def lastByteScript : List Outputs :=
  [quiet, storing 15 1 0x41, storing 15 1 0x41, loading 15, quiet, quiet]

/-- Two steps: a one-byte store of `0x41` at address 0, then a load at address 0. -/
def firstByteScript : List Outputs :=
  [quiet, storing 0 1 0x41, storing 0 1 0x41, loading 0, quiet, quiet]

/-- One step: a word stored at address 8. -/
def wordAtEightScript : List Outputs := [quiet, storing 8 3 0x41, storing 8 3 0x41]

/-- Two steps: the word `0xDEADBEEF` stored at address 4, then a load at address 4. -/
def roundTripScript : List Outputs :=
  [quiet, storing 4 3 0xDEADBEEF, storing 4 3 0xDEADBEEF, loading 4, quiet, quiet]

/-- The example harness with the time stamp configured at byte `timeOffset` of Memory. -/
def stampedCPU (timeOffset : Int) (script : List Outputs) : CPU (List Outputs) :=
  { exampleCPU script with
    options := { exampleOptions with useTimeOffset := true, timeOffset := timeOffset } }

/-- The harness `pastEndCPU` with the program counter at 0, inside its one-word
instruction array. -/
def withinCPU : CPU (List Outputs) := { pastEndCPU with vcpu := some (VCPU.zero []) }

end RVGUI

/-! ## Facts about the address space -/

namespace RVGUI

theorem poke_same (h : Heap) (p b : Nat) : poke h p b p = b % 256 := by
  simp [poke]

theorem poke_other (h : Heap) (p b q : Nat) (hq : q ≠ p) : poke h p b q = h q := by
  simp [poke, hq]

theorem peek_lt (h : Heap) (p : Nat) : peek h p < 256 := by
  unfold peek; omega

theorem memcpyFromWord_outside (h : Heap) (dst value n q : Nat)
    (hq : q < dst ∨ dst + n ≤ q) : memcpyFromWord h dst value n q = h q := by
  induction n with
  | zero => rfl
  | succ n ih =>
    have hne : q ≠ dst + n := by omega
    rw [memcpyFromWord, poke_other _ _ _ _ hne]
    exact ih (by omega)

theorem memcpyFromWord_inside (h : Heap) (dst value n k : Nat) (hk : k < n) :
    memcpyFromWord h dst value n (dst + k) = value / 256 ^ k % 256 := by
  induction n with
  | zero => omega
  | succ n ih =>
    rw [memcpyFromWord]
    by_cases hkn : k = n
    · subst hkn; exact poke_same _ _ _
    · rw [poke_other _ _ _ _ (by omega)]
      exact ih (by omega)

theorem memcpyBytes_outside (data : List Nat) (h : Heap) (dst q : Nat)
    (hq : q < dst ∨ dst + data.length ≤ q) : memcpyBytes h dst data q = h q := by
  induction data generalizing h dst with
  | nil => rfl
  | cons b rest ih =>
    simp only [List.length_cons] at hq
    rw [memcpyBytes, ih _ _ (by omega), poke_other _ _ _ _ (by omega)]

theorem memcpyBytes_inside (data : List Nat) (h : Heap) (dst k : Nat)
    (hk : k < data.length) : memcpyBytes h dst data (dst + k) = data.getD k 0 % 256 := by
  induction data generalizing h dst k with
  | nil => simp at hk
  | cons b rest ih =>
    rw [memcpyBytes]
    cases k with
    | zero =>
      rw [memcpyBytes_outside _ _ _ _ (by omega)]
      simp [poke]
    | succ k =>
      simp only [List.length_cons] at hk
      have := ih (poke h dst b) (dst + 1) k (by omega)
      rw [show dst + (k + 1) = dst + 1 + k by omega, this]
      simp

theorem zeroFill_inside (h : Heap) (p n q : Nat) (hq : p ≤ q ∧ q < p + n) :
    zeroFill h p n q = 0 := by
  simp [zeroFill, hq]

theorem zeroFill_outside (h : Heap) (p n q : Nat) (hq : q < p ∨ p + n ≤ q) :
    zeroFill h p n q = h q := by
  unfold zeroFill
  rw [if_neg (by omega)]

theorem readWord_congr (h h' : Heap) (p : Nat)
    (e : ∀ k, k < 4 → h' (p + k) = h (p + k)) : readWord h' p = readWord h p := by
  have e0 := e 0 (by omega)
  have e1 := e 1 (by omega)
  have e2 := e 2 (by omega)
  have e3 := e 3 (by omega)
  simp only [Nat.add_zero] at e0
  simp only [readWord, peek, e0, e1, e2, e3]

theorem readWord_lt (h : Heap) (p : Nat) : readWord h p < 2 ^ 32 := by
  have h0 := peek_lt h p
  have h1 := peek_lt h (p + 1)
  have h2 := peek_lt h (p + 2)
  have h3 := peek_lt h (p + 3)
  unfold readWord
  omega

/-- Reading back a freshly copied word: the four bytes of `value`. -/
theorem readWord_memcpyFromWord (h : Heap) (p value : Nat) :
    readWord (memcpyFromWord h p value 4) p = value % 2 ^ 32 := by
  have b0 := memcpyFromWord_inside h p value 4 0 (by omega)
  have b1 := memcpyFromWord_inside h p value 4 1 (by omega)
  have b2 := memcpyFromWord_inside h p value 4 2 (by omega)
  have b3 := memcpyFromWord_inside h p value 4 3 (by omega)
  simp only [Nat.add_zero] at b0
  simp only [readWord, peek, b0, b1, b2, b3]
  norm_num
  omega

/-! ## The shape of one step -/

/-- The harness can be stepped: the three guards at the top of `CPU::tick` pass. -/
theorem tick_guards {σ : Type} (m : Model σ) (clk : Clock) (s : CPU σ) (v : VCPU σ)
    (hv : s.vcpu = some v) (hmem : s.memory ≠ 0)
    (hins : s.options.separateInstructions = true → s.instructions ≠ 0) :
    tick m clk s =
      match loadPhase (stampTime clk s) (fetchEval m (stampTime clk s) v) with
      | .error e =>
        ⟨{ stampTime clk s with vcpu := some (fetchEval m (stampTime clk s) v) }, .error e⟩
      | .ok v1 =>
        match storePhase (stampTime clk s) (clockEdge m v1) with
        | .error e => ⟨{ stampTime clk s with vcpu := some (clockEdge m v1) }, .error e⟩
        | .ok heap =>
          if (clockEdge m v1).i_inst = 0x6f then
            ⟨{ stampTime clk s with vcpu := some (clockEdge m v1), heap := heap, count := (stampTime clk s).count + 1, end_ := clk.atEnd }, .ok false⟩
          else
            ⟨{ stampTime clk s with vcpu := some (clockEdge m v1), heap := heap, count := (stampTime clk s).count + 1 }, .ok true⟩ := by
  have hg : (s.options.separateInstructions && s.instructions == 0) = false := by
    cases hsep : s.options.separateInstructions
    · simp
    · simpa using hins hsep
  unfold tick
  simp only [hv, hmem, hg, if_false, Bool.false_eq_true]

/-! ## The store phase -/

theorem storeWidth_pos (code : Nat) (hc : code = 1 ∨ code = 2 ∨ code = 3) :
    storeWidth code = 1 ∨ storeWidth code = 2 ∨ storeWidth code = 4 := by
  rcases hc with h | h | h <;> subst h <;> simp [storeWidth]

theorem writeRejected_iff {σ : Type} (s : CPU σ) (ptrsum last : Nat) :
    writeRejected s ptrsum last = true ↔
      ¬ (s.memory ≤ ptrsum ∧ ptrsum + last < s.memory + s.options.memorySize) ∧
      ¬ (s.framebuffer ≤ ptrsum ∧ ptrsum + last < s.framebuffer + s.framebufferSize) := by
  simp only [writeRejected, Bool.and_eq_true, Bool.not_eq_true', Bool.and_eq_false_iff,
    decide_eq_true_eq, decide_eq_false_iff_not]
  constructor
  · rintro ⟨h1, h2⟩
    exact ⟨by omega, by omega⟩
  · rintro ⟨h1, h2⟩
    exact ⟨by omega, by omega⟩

/-- The store phase on a requested store of width code 1, 2 or 3: the guard, then the
copy. -/
theorem storePhase_requested {σ : Type} (s : CPU σ) (v : VCPU σ) (hw : v.o_write ≠ 0)
    (hc : v.o_memsize = 1 ∨ v.o_memsize = 2 ∨ v.o_memsize = 3) :
    storePhase s v =
      if writeRejected s (storePointer s v + storeAddress s v) (storeWidth v.o_memsize - 1) then
        .error (.writeOutOfRange (storeWidth v.o_memsize) (storePointer s v + storeAddress s v))
      else
        .ok (memcpyFromWord s.heap (storePointer s v + storeAddress s v) v.o_mem
              (storeWidth v.o_memsize)) := by
  rcases hc with h | h | h <;> simp [storePhase, hw, h, storeWidth]

/-- The guard of the store phase rejects exactly the ranges that lie neither in the
target store nor, as raw addresses, in the other array. -/
theorem writeRejected_eq {σ : Type} (s : CPU σ) (v : VCPU σ)
    (hc : v.o_memsize = 1 ∨ v.o_memsize = 2 ∨ v.o_memsize = 3) :
    writeRejected s (storePointer s v + storeAddress s v) (storeWidth v.o_memsize - 1) = true ↔
      ¬ StoreInTarget s v ∧ ¬ StoreInOther s v := by
  rw [writeRejected_iff]
  have hwd := storeWidth_pos _ hc
  unfold StoreInTarget StoreInOther storePointer storeAddress
  by_cases hm : s.options.mmioOffset ≤ v.o_addr
  · simp only [hm, if_true]
    constructor
    · rintro ⟨h1, h2⟩
      exact ⟨by omega, by omega⟩
    · rintro ⟨h1, h2⟩
      exact ⟨by omega, by omega⟩
  · simp only [hm, if_false]
    constructor
    · rintro ⟨h1, h2⟩
      exact ⟨by omega, by omega⟩
    · rintro ⟨h1, h2⟩
      exact ⟨by omega, by omega⟩

theorem storePhase_spec {σ : Type} (s : CPU σ) (v : VCPU σ) (hw : v.o_write ≠ 0)
    (hc : v.o_memsize = 1 ∨ v.o_memsize = 2 ∨ v.o_memsize = 3) :
    (¬ StoreInTarget s v ∧ ¬ StoreInOther s v →
      storePhase s v =
        .error (.writeOutOfRange (storeWidth v.o_memsize) (storePointer s v + storeAddress s v)))
    ∧ (StoreInTarget s v ∨ StoreInOther s v →
      storePhase s v =
        .ok (memcpyFromWord s.heap (storePointer s v + storeAddress s v) v.o_mem
              (storeWidth v.o_memsize))) := by
  rw [storePhase_requested s v hw hc]
  constructor
  · intro h
    rw [if_pos ((writeRejected_eq s v hc).2 h)]
  · intro h
    rw [if_neg]
    intro hr
    have := (writeRejected_eq s v hc).1 hr
    tauto

/-! ## C1: the bounds check of the store phase -/

/-- C1, as stated, fails.  The core addresses Memory (`o_addr = 0x10000` is below
`mmioOffset`) with a one-byte store whose range `[0x10000, 0x10001)` is not within the 16
bytes of Memory; `CPU::tick` raises nothing, returns `true`, and the byte lands in the
Framebuffer, whose array starts at `memory.get() + 0x10000`. -/
theorem store_outside_target_not_rejected :
    (clockEdge scripted (fetchEval scripted (stampTime exampleClock (exampleCPU aliasingScript))
        (VCPU.zero aliasingScript))).o_write = 1
    ∧ (clockEdge scripted (fetchEval scripted (stampTime exampleClock (exampleCPU aliasingScript))
        (VCPU.zero aliasingScript))).o_memsize = 1
    ∧ (clockEdge scripted (fetchEval scripted (stampTime exampleClock (exampleCPU aliasingScript))
        (VCPU.zero aliasingScript))).o_addr = 0x10000
    ∧ (exampleCPU aliasingScript).options.mmioOffset = 0x80000000
    ∧ (exampleCPU aliasingScript).options.memorySize = 16
    ∧ (tick scripted exampleClock (exampleCPU aliasingScript)).result = .ok true
    ∧ (tick scripted exampleClock (exampleCPU aliasingScript)).state.framebufferByte 0 = 0xAB
    ∧ (exampleCPU aliasingScript).framebufferByte 0 = 0 :=
  ⟨rfl, rfl, rfl, rfl, rfl, rfl, rfl, rfl⟩

/-- C1, amended.  In a step that reaches its store phase with the store flag asserted and
width code 1, 2 or 3, `CPU::tick` raises the out-of-range failure exactly when the byte
range lies entirely within neither the target store nor, counted from
`pointer + localAddress`, the array of the other store; then nothing is written.
Otherwise it raises nothing and performs the write at `pointer + localAddress`.  So a
range within the target store is always written. -/
theorem tick_store_bounds {σ : Type} (m : Model σ) (clk : Clock) (s : CPU σ) (v v1 : VCPU σ)
    (hv : s.vcpu = some v) (hmem : s.memory ≠ 0)
    (hins : s.options.separateInstructions = true → s.instructions ≠ 0)
    (hload : loadPhase (stampTime clk s) (fetchEval m (stampTime clk s) v) = .ok v1)
    (hwrite : (clockEdge m v1).o_write ≠ 0)
    (hcode : (clockEdge m v1).o_memsize = 1 ∨ (clockEdge m v1).o_memsize = 2
      ∨ (clockEdge m v1).o_memsize = 3) :
    ((∃ e, (tick m clk s).result = .error e) ↔
        ¬ StoreInTarget (stampTime clk s) (clockEdge m v1)
          ∧ ¬ StoreInOther (stampTime clk s) (clockEdge m v1))
    ∧ (¬ StoreInTarget (stampTime clk s) (clockEdge m v1)
          ∧ ¬ StoreInOther (stampTime clk s) (clockEdge m v1) →
        (tick m clk s).result =
            .error (.writeOutOfRange (storeWidth (clockEdge m v1).o_memsize)
              (storePointer (stampTime clk s) (clockEdge m v1)
                + storeAddress (stampTime clk s) (clockEdge m v1)))
          ∧ (tick m clk s).state.heap = (stampTime clk s).heap)
    ∧ (StoreInTarget (stampTime clk s) (clockEdge m v1)
          ∨ StoreInOther (stampTime clk s) (clockEdge m v1) →
        (tick m clk s).result = .ok (decide ((clockEdge m v1).i_inst ≠ 0x6f))
          ∧ (tick m clk s).state.heap =
              memcpyFromWord (stampTime clk s).heap
                (storePointer (stampTime clk s) (clockEdge m v1)
                  + storeAddress (stampTime clk s) (clockEdge m v1))
                (clockEdge m v1).o_mem (storeWidth (clockEdge m v1).o_memsize)) := by
  have hspec := storePhase_spec (stampTime clk s) (clockEdge m v1) hwrite hcode
  have hbad : ¬ StoreInTarget (stampTime clk s) (clockEdge m v1)
        ∧ ¬ StoreInOther (stampTime clk s) (clockEdge m v1) →
      (tick m clk s).result =
          .error (.writeOutOfRange (storeWidth (clockEdge m v1).o_memsize)
            (storePointer (stampTime clk s) (clockEdge m v1)
              + storeAddress (stampTime clk s) (clockEdge m v1)))
        ∧ (tick m clk s).state.heap = (stampTime clk s).heap := by
    intro h
    rw [tick_guards m clk s v hv hmem hins]
    rw [hload]
    simp only []
    rw [hspec.1 h]
    exact ⟨rfl, rfl⟩
  have hgood : StoreInTarget (stampTime clk s) (clockEdge m v1)
        ∨ StoreInOther (stampTime clk s) (clockEdge m v1) →
      (tick m clk s).result = .ok (decide ((clockEdge m v1).i_inst ≠ 0x6f))
        ∧ (tick m clk s).state.heap =
            memcpyFromWord (stampTime clk s).heap
              (storePointer (stampTime clk s) (clockEdge m v1)
                + storeAddress (stampTime clk s) (clockEdge m v1))
              (clockEdge m v1).o_mem (storeWidth (clockEdge m v1).o_memsize) := by
    intro h
    rw [tick_guards m clk s v hv hmem hins]
    rw [hload]
    simp only []
    rw [hspec.2 h]
    by_cases hi : (clockEdge m v1).i_inst = 0x6f
    · simp [hi]
    · simp [hi]
  refine ⟨⟨?_, ?_⟩, hbad, hgood⟩
  · rintro ⟨e, he⟩
    by_cases hd : StoreInTarget (stampTime clk s) (clockEdge m v1)
        ∨ StoreInOther (stampTime clk s) (clockEdge m v1)
    · rw [(hgood hd).1] at he
      exact Except.noConfusion he
    · exact ⟨fun h => hd (Or.inl h), fun h => hd (Or.inr h)⟩
  · intro h
    exact ⟨_, (hbad h).1⟩

/-- C1, amended, at work: one byte stored at address 16 of a 16-byte Memory is rejected
and nothing is written. -/
theorem tick_store_bounds_witness :
    (tick scripted exampleClock (exampleCPU pastMemoryScript)).result
        = .error (.writeOutOfRange 1 0x10010)
    ∧ (tick scripted exampleClock (exampleCPU pastMemoryScript)).state.heap
        = (stampTime exampleClock (exampleCPU pastMemoryScript)).heap :=
  (tick_store_bounds scripted exampleClock (exampleCPU pastMemoryScript)
    (VCPU.zero pastMemoryScript)
    (fetchEval scripted (stampTime exampleClock (exampleCPU pastMemoryScript))
      (VCPU.zero pastMemoryScript))
    rfl (by decide) (by decide) rfl (by decide) (by decide)).2.1 ⟨by decide, by decide⟩

/-! ## The word read back after a store -/

/-- The word read back at `p` after `w` bytes of `value` were copied there: the low `w`
bytes are those of `value`, the rest is what was there. -/
theorem readWord_memcpyFromWord_width (h : Heap) (p value w : Nat)
    (hw : w = 1 ∨ w = 2 ∨ w = 4) :
    readWord (memcpyFromWord h p value w) p
      = value % 256 ^ w + 256 ^ w * (readWord h p / 256 ^ w) := by
  have l0 := peek_lt h p
  have l1 := peek_lt h (p + 1)
  have l2 := peek_lt h (p + 2)
  have l3 := peek_lt h (p + 3)
  rcases hw with hw | hw | hw <;> subst hw
  · have b0 := memcpyFromWord_inside h p value 1 0 (by omega)
    have b1 := memcpyFromWord_outside h p value 1 (p + 1) (by omega)
    have b2 := memcpyFromWord_outside h p value 1 (p + 2) (by omega)
    have b3 := memcpyFromWord_outside h p value 1 (p + 3) (by omega)
    simp only [Nat.add_zero] at b0
    simp only [readWord, peek, b0, b1, b2, b3] at *
    norm_num
    omega
  · have b0 := memcpyFromWord_inside h p value 2 0 (by omega)
    have b1 := memcpyFromWord_inside h p value 2 1 (by omega)
    have b2 := memcpyFromWord_outside h p value 2 (p + 2) (by omega)
    have b3 := memcpyFromWord_outside h p value 2 (p + 3) (by omega)
    simp only [Nat.add_zero] at b0
    simp only [readWord, peek, b0, b1, b2, b3] at *
    norm_num
    omega
  · have b0 := memcpyFromWord_inside h p value 4 0 (by omega)
    have b1 := memcpyFromWord_inside h p value 4 1 (by omega)
    have b2 := memcpyFromWord_inside h p value 4 2 (by omega)
    have b3 := memcpyFromWord_inside h p value 4 3 (by omega)
    simp only [Nat.add_zero] at b0
    simp only [readWord, peek, b0, b1, b2, b3] at *
    norm_num
    omega

/-! ## C3: the load phase -/

theorem eval_inputs {σ : Type} (m : Model σ) (v : VCPU σ) :
    (VCPU.eval m v).i_inst = v.i_inst ∧ (VCPU.eval m v).i_mem = v.i_mem
      ∧ (VCPU.eval m v).i_clk = v.i_clk :=
  ⟨rfl, rfl, rfl⟩

theorem clockEdge_inputs {σ : Type} (m : Model σ) (v : VCPU σ) :
    (clockEdge m v).i_inst = v.i_inst ∧ (clockEdge m v).i_mem = v.i_mem :=
  ⟨rfl, rfl⟩

theorem fetchEval_i_inst {σ : Type} (m : Model σ) (s : CPU σ) (v : VCPU σ) :
    (fetchEval m s v).i_inst = s.instructionWord (v.o_pc / 4) :=
  rfl

theorem stampTime_fields {σ : Type} (clk : Clock) (s : CPU σ) :
    (stampTime clk s).options = s.options ∧ (stampTime clk s).memory = s.memory
      ∧ (stampTime clk s).framebuffer = s.framebuffer
      ∧ (stampTime clk s).framebufferSize = s.framebufferSize
      ∧ (stampTime clk s).instructions = s.instructions
      ∧ (stampTime clk s).count = s.count
      ∧ (stampTime clk s).vcpu = s.vcpu := by
  unfold stampTime
  by_cases h0 : s.start = 0 <;> by_cases ht : s.options.useTimeOffset = true <;> simp [h0, ht]

theorem stampTime_heap {σ : Type} (clk : Clock) (s : CPU σ)
    (ht : s.options.useTimeOffset = false) : (stampTime clk s).heap = s.heap := by
  unfold stampTime
  by_cases h0 : s.start = 0 <;> simp [h0, ht]

/-- A step whose load phase fails ends there, with that failure. -/
theorem tick_of_load_error {σ : Type} (m : Model σ) (clk : Clock) (s : CPU σ) (v : VCPU σ)
    (e : Fault) (hv : s.vcpu = some v) (hmem : s.memory ≠ 0)
    (hins : s.options.separateInstructions = true → s.instructions ≠ 0)
    (hload : loadPhase (stampTime clk s) (fetchEval m (stampTime clk s) v) = .error e) :
    (tick m clk s).result = .error e
      ∧ (tick m clk s).state.count = s.count
      ∧ (tick m clk s).state.heap = (stampTime clk s).heap := by
  rw [tick_guards m clk s v hv hmem hins, hload]
  simp [(stampTime_fields clk s).2.2.2.2.2.1]

/-- A step whose load phase succeeds leaves the core as the clock edge left it, and
fails only if its store phase does. -/
theorem tick_of_load_ok {σ : Type} (m : Model σ) (clk : Clock) (s : CPU σ) (v v1 : VCPU σ)
    (hv : s.vcpu = some v) (hmem : s.memory ≠ 0)
    (hins : s.options.separateInstructions = true → s.instructions ≠ 0)
    (hload : loadPhase (stampTime clk s) (fetchEval m (stampTime clk s) v) = .ok v1) :
    (tick m clk s).state.vcpu = some (clockEdge m v1)
      ∧ (∀ e, (tick m clk s).result = .error e →
          storePhase (stampTime clk s) (clockEdge m v1) = .error e)
      ∧ (∀ e, storePhase (stampTime clk s) (clockEdge m v1) = .error e →
          (tick m clk s).result = .error e ∧ (tick m clk s).state.count = s.count
            ∧ (tick m clk s).state.heap = (stampTime clk s).heap)
      ∧ (∀ h, storePhase (stampTime clk s) (clockEdge m v1) = .ok h →
          (tick m clk s).result = .ok (decide ((clockEdge m v1).i_inst ≠ 0x6f))
            ∧ (tick m clk s).state.count = s.count + 1
            ∧ (tick m clk s).state.heap = h) := by
  have hcount := (stampTime_fields clk s).2.2.2.2.2.1
  rw [tick_guards m clk s v hv hmem hins, hload]
  cases hst : storePhase (stampTime clk s) (clockEdge m v1) with
  | error e' => simp [hst, hcount]
  | ok h' =>
    by_cases hi : (clockEdge m v1).i_inst = 0x6f
    · simp [hst, hcount, hi]
    · simp [hst, hcount, hi]

/-- The load phase on a load request addressed to the Framebuffer. -/
theorem loadPhase_framebuffer {σ : Type} (s : CPU σ) (v : VCPU σ) (hl : v.o_load ≠ 0)
    (hm : s.options.mmioOffset ≤ v.o_addr) :
    (s.framebufferSize < v.o_addr - s.options.mmioOffset + 4 →
        loadPhase s v
          = .error (.framebufferReadOutOfRange (s.framebuffer + (v.o_addr - s.options.mmioOffset))))
    ∧ (v.o_addr - s.options.mmioOffset + 4 ≤ s.framebufferSize →
        loadPhase s v
          = .ok { v with i_mem :=
              s.framebufferByte (v.o_addr - s.options.mmioOffset)
                + 256 * s.framebufferByte (v.o_addr - s.options.mmioOffset + 1)
                + 65536 * s.framebufferByte (v.o_addr - s.options.mmioOffset + 2)
                + 16777216 * s.framebufferByte (v.o_addr - s.options.mmioOffset + 3) }) := by
  constructor
  · intro h
    have h3 : ¬ (v.o_addr - s.options.mmioOffset + 3 < s.framebufferSize) := by omega
    simp [loadPhase, hl, hm, h3]
  · intro h
    have h3 : v.o_addr - s.options.mmioOffset + 3 < s.framebufferSize := by omega
    have hp : s.framebuffer + v.o_addr - s.options.mmioOffset
        = s.framebuffer + (v.o_addr - s.options.mmioOffset) := by omega
    simp [loadPhase, hl, hm, h3, hp, readWord, CPU.framebufferByte, Nat.add_assoc]

/-- The load phase on a load request addressed to Memory. -/
theorem loadPhase_memory {σ : Type} (s : CPU σ) (v : VCPU σ) (hl : v.o_load ≠ 0)
    (hm : v.o_addr < s.options.mmioOffset) (h0 : 0 < s.options.memorySize) :
    (s.options.memorySize < v.o_addr % s.options.memorySize + 4 →
        loadPhase s v
          = .error (.memoryReadOutOfRange (s.memory + v.o_addr % s.options.memorySize)))
    ∧ (v.o_addr % s.options.memorySize + 4 ≤ s.options.memorySize →
        loadPhase s v
          = .ok { v with i_mem :=
              s.memoryByte (v.o_addr % s.options.memorySize)
                + 256 * s.memoryByte (v.o_addr % s.options.memorySize + 1)
                + 65536 * s.memoryByte (v.o_addr % s.options.memorySize + 2)
                + 16777216 * s.memoryByte (v.o_addr % s.options.memorySize + 3) }) := by
  have hm' : ¬ (s.options.mmioOffset ≤ v.o_addr) := by omega
  have h0' : s.options.memorySize ≠ 0 := by omega
  constructor
  · intro h
    have h3 : ¬ (v.o_addr % s.options.memorySize + 3 < s.options.memorySize) := by omega
    simp [loadPhase, hl, hm', h0', h3]
  · intro h
    have h3 : v.o_addr % s.options.memorySize + 3 < s.options.memorySize := by omega
    simp [loadPhase, hl, hm', h0', h3, readWord, CPU.memoryByte, Nat.add_assoc]

/-- The store phase throws nothing but its own out-of-range failure. -/
theorem storePhase_error_kind {σ : Type} (s : CPU σ) (v : VCPU σ) (e : Fault)
    (h : storePhase s v = .error e) : ∃ w p, e = .writeOutOfRange w p := by
  unfold storePhase at h
  simp only [] at h
  split at h
  · split at h
    · split at h
      · cases h; exact ⟨_, _, rfl⟩
      · cases h
    · split at h
      · split at h
        · cases h; exact ⟨_, _, rfl⟩
        · cases h
      · split at h
        · split at h
          · cases h; exact ⟨_, _, rfl⟩
          · cases h
        · cases h
  · cases h

/-- C3.  In a step in which the core asserts its load output with requested address `a`,
`CPU::tick` performs a 4-byte load.  For `a >= mmioOffset` it fails with the Framebuffer
out-of-range failure exactly when `a - mmioOffset + 4 > framebufferSize`, and otherwise
feeds Framebuffer bytes `[a - mmioOffset, a - mmioOffset + 4)` to the memory-read input.
For `a < mmioOffset` (Memory of positive size) it fails with the Memory out-of-range
failure exactly when `a mod memorySize + 4 > memorySize`, and otherwise feeds Memory bytes
`[a mod memorySize, a mod memorySize + 4)`.  Stores do not wrap: a store addressed to
Memory whose range `[a, a + width)` passes the end of Memory is rejected (unless its raw
address range is the Framebuffer array), whatever `a mod memorySize` is. -/
theorem tick_load_phase {σ : Type} (m : Model σ) (clk : Clock) (s : CPU σ) (v : VCPU σ)
    (hv : s.vcpu = some v) (hmem : s.memory ≠ 0)
    (hins : s.options.separateInstructions = true → s.instructions ≠ 0)
    (hl : (fetchEval m (stampTime clk s) v).o_load ≠ 0) :
    (s.options.mmioOffset ≤ (fetchEval m (stampTime clk s) v).o_addr →
      ((tick m clk s).result
          = .error (.framebufferReadOutOfRange
              (s.framebuffer + ((fetchEval m (stampTime clk s) v).o_addr - s.options.mmioOffset)))
        ↔ s.framebufferSize
            < (fetchEval m (stampTime clk s) v).o_addr - s.options.mmioOffset + 4)
      ∧ ((fetchEval m (stampTime clk s) v).o_addr - s.options.mmioOffset + 4
            ≤ s.framebufferSize →
          (tick m clk s).state.vcpu.map VCPU.i_mem
            = some ((stampTime clk s).framebufferByte
                  ((fetchEval m (stampTime clk s) v).o_addr - s.options.mmioOffset)
              + 256 * (stampTime clk s).framebufferByte
                  ((fetchEval m (stampTime clk s) v).o_addr - s.options.mmioOffset + 1)
              + 65536 * (stampTime clk s).framebufferByte
                  ((fetchEval m (stampTime clk s) v).o_addr - s.options.mmioOffset + 2)
              + 16777216 * (stampTime clk s).framebufferByte
                  ((fetchEval m (stampTime clk s) v).o_addr - s.options.mmioOffset + 3))))
    ∧ ((fetchEval m (stampTime clk s) v).o_addr < s.options.mmioOffset →
        0 < s.options.memorySize →
      ((tick m clk s).result
          = .error (.memoryReadOutOfRange
              (s.memory + (fetchEval m (stampTime clk s) v).o_addr % s.options.memorySize))
        ↔ s.options.memorySize
            < (fetchEval m (stampTime clk s) v).o_addr % s.options.memorySize + 4)
      ∧ ((fetchEval m (stampTime clk s) v).o_addr % s.options.memorySize + 4
            ≤ s.options.memorySize →
          (tick m clk s).state.vcpu.map VCPU.i_mem
            = some ((stampTime clk s).memoryByte
                  ((fetchEval m (stampTime clk s) v).o_addr % s.options.memorySize)
              + 256 * (stampTime clk s).memoryByte
                  ((fetchEval m (stampTime clk s) v).o_addr % s.options.memorySize + 1)
              + 65536 * (stampTime clk s).memoryByte
                  ((fetchEval m (stampTime clk s) v).o_addr % s.options.memorySize + 2)
              + 16777216 * (stampTime clk s).memoryByte
                  ((fetchEval m (stampTime clk s) v).o_addr % s.options.memorySize + 3))))
    ∧ (∀ vS : VCPU σ, vS.o_write ≠ 0 →
        vS.o_memsize = 1 ∨ vS.o_memsize = 2 ∨ vS.o_memsize = 3 →
        vS.o_addr < s.options.mmioOffset →
        s.options.memorySize < vS.o_addr + storeWidth vS.o_memsize →
        ¬ StoreInOther s vS →
        storePhase s vS
          = .error (.writeOutOfRange (storeWidth vS.o_memsize) (s.memory + vS.o_addr))) := by
  obtain ⟨hopt, hmp, hfp, hfs, -, -, -⟩ := stampTime_fields clk s
  refine ⟨?_, ?_, ?_⟩
  · intro hm
    have key := loadPhase_framebuffer (stampTime clk s) (fetchEval m (stampTime clk s) v) hl
      (by rw [hopt]; exact hm)
    rw [hopt, hfp, hfs] at key
    constructor
    · constructor
      · intro hres
        by_contra hcon
        have hok := key.2 (by omega)
        have h2 := (tick_of_load_ok m clk s v _ hv hmem hins hok).2.1 _ hres
        obtain ⟨w, q, hq⟩ := storePhase_error_kind _ _ _ h2
        cases hq
      · intro hlt
        exact (tick_of_load_error m clk s v _ hv hmem hins (key.1 hlt)).1
    · intro hle
      rw [(tick_of_load_ok m clk s v _ hv hmem hins (key.2 hle)).1]
      rfl
  · intro hm h0
    have key := loadPhase_memory (stampTime clk s) (fetchEval m (stampTime clk s) v) hl
      (by rw [hopt]; exact hm) (by rw [hopt]; exact h0)
    rw [hopt, hmp] at key
    constructor
    · constructor
      · intro hres
        by_contra hcon
        have hok := key.2 (by omega)
        have h2 := (tick_of_load_ok m clk s v _ hv hmem hins hok).2.1 _ hres
        obtain ⟨w, q, hq⟩ := storePhase_error_kind _ _ _ h2
        cases hq
      · intro hlt
        exact (tick_of_load_error m clk s v _ hv hmem hins (key.1 hlt)).1
    · intro hle
      rw [(tick_of_load_ok m clk s v _ hv hmem hins (key.2 hle)).1]
      rfl
  · intro vS hw hc hm hpast hother
    have hT : ¬ StoreInTarget s vS := by
      unfold StoreInTarget storeAddress
      have hm' : ¬ (s.options.mmioOffset ≤ vS.o_addr) := by omega
      simp only [hm', if_false]
      omega
    have := (storePhase_spec s vS hw hc).1 ⟨hT, hother⟩
    rw [this]
    have hm' : ¬ (s.options.mmioOffset ≤ vS.o_addr) := by omega
    simp [storePointer, storeAddress, hm']

/-- C3 at work: a load at address 0 of a Memory holding `00 FF 00 00` feeds `0xFF00` to
the memory-read input. -/
theorem tick_load_phase_witness :
    (tick scripted exampleClock (dirtyCPU loadScript)).state.vcpu.map VCPU.i_mem
      = some 0xFF00 :=
  ((tick_load_phase scripted exampleClock (dirtyCPU loadScript) (VCPU.zero loadScript)
    rfl (by decide) (by decide) (by decide)).2.1 (by decide) (by decide)).2 (by decide)

/-! ## C4: what a store writes -/

/-- A step never moves or resizes the stores. -/
theorem tick_pointers {σ : Type} (m : Model σ) (clk : Clock) (s : CPU σ) :
    (tick m clk s).state.options = s.options ∧ (tick m clk s).state.memory = s.memory
      ∧ (tick m clk s).state.framebuffer = s.framebuffer
      ∧ (tick m clk s).state.framebufferSize = s.framebufferSize
      ∧ (tick m clk s).state.instructions = s.instructions := by
  obtain ⟨hopt, hmp, hfp, hfs, hip, -, -⟩ := stampTime_fields clk s
  cases hv : s.vcpu with
  | none => simp [tick, hv]
  | some v =>
    by_cases hmem : s.memory = 0
    · simp [tick, hv, hmem]
    · by_cases hg : (s.options.separateInstructions && s.instructions == 0) = true
      · simp [tick, hv, hmem, hg]
      · have hins : s.options.separateInstructions = true → s.instructions ≠ 0 := by
          intro hsep hi
          apply hg
          simp [hsep, hi]
        rw [tick_guards m clk s v hv hmem hins]
        cases hld : loadPhase (stampTime clk s) (fetchEval m (stampTime clk s) v) with
        | error e => simp [hopt, hmp, hfp, hfs, hip]
        | ok v1 =>
          cases hst : storePhase (stampTime clk s) (clockEdge m v1) with
          | error e => simp [hst, hopt, hmp, hfp, hfs, hip]
          | ok h =>
            by_cases hi : (clockEdge m v1).i_inst = 0x6f
            · simp [hst, hi, hopt, hmp, hfp, hfs, hip]
            · simp [hst, hi, hopt, hmp, hfp, hfs, hip]

/-- The store phase when the width code is none of 1, 2, 3, or no store is requested. -/
theorem storePhase_idle {σ : Type} (s : CPU σ) (v : VCPU σ)
    (h : v.o_write = 0 ∨ ¬ (v.o_memsize = 1 ∨ v.o_memsize = 2 ∨ v.o_memsize = 3)) :
    storePhase s v = .ok s.heap := by
  unfold storePhase
  rcases h with h | h
  · simp [h]
  · have h1 : v.o_memsize ≠ 1 := fun e => h (Or.inl e)
    have h2 : v.o_memsize ≠ 2 := fun e => h (Or.inr (Or.inl e))
    have h3 : v.o_memsize ≠ 3 := fun e => h (Or.inr (Or.inr e))
    simp [h1, h2, h3]

/-- C4.  In a step that reaches its store phase with the store flag asserted: when the
width code is 1, 2 or 3 and the range lies within the target store, `CPU::tick` raises
nothing, byte `k` of the 1, 2 or 4 bytes at the computed address of the target store
becomes byte `k` of the write-data output (least significant first), and every other byte
of the address space, so every other byte of Memory and Framebuffer, is as before; a
store to the Framebuffer leaves Memory as it was and the other way round, and the word
`0xDEADBEEF` stored at `mmioOffset` leaves `EF BE AD DE` in Framebuffer bytes 0 to 3.
For any other width code nothing is written and nothing is raised. -/
theorem tick_store_effect {σ : Type} (m : Model σ) (clk : Clock) (s : CPU σ) (v v1 : VCPU σ)
    (hv : s.vcpu = some v) (hmem : s.memory ≠ 0)
    (hins : s.options.separateInstructions = true → s.instructions ≠ 0)
    (hload : loadPhase (stampTime clk s) (fetchEval m (stampTime clk s) v) = .ok v1)
    (hwrite : (clockEdge m v1).o_write ≠ 0) :
    (((clockEdge m v1).o_memsize = 1 ∨ (clockEdge m v1).o_memsize = 2
          ∨ (clockEdge m v1).o_memsize = 3) →
        StoreInTarget (stampTime clk s) (clockEdge m v1) →
      (tick m clk s).result = .ok (decide ((clockEdge m v1).i_inst ≠ 0x6f))
      ∧ (∀ k, k < storeWidth (clockEdge m v1).o_memsize →
          (tick m clk s).state.heap
              (storePointer (stampTime clk s) (clockEdge m v1)
                + storeAddress (stampTime clk s) (clockEdge m v1) + k)
            = (clockEdge m v1).o_mem / 256 ^ k % 256)
      ∧ (∀ q, (q < storePointer (stampTime clk s) (clockEdge m v1)
                  + storeAddress (stampTime clk s) (clockEdge m v1)
              ∨ storePointer (stampTime clk s) (clockEdge m v1)
                  + storeAddress (stampTime clk s) (clockEdge m v1)
                  + storeWidth (clockEdge m v1).o_memsize ≤ q) →
          (tick m clk s).state.heap q = (stampTime clk s).heap q)
      ∧ (s.options.mmioOffset ≤ (clockEdge m v1).o_addr →
          (∀ k, k < storeWidth (clockEdge m v1).o_memsize →
            (tick m clk s).state.framebufferByte
                ((clockEdge m v1).o_addr - s.options.mmioOffset + k)
              = (clockEdge m v1).o_mem / 256 ^ k % 256)
          ∧ (ArraysApart s → ∀ i, i < s.options.memorySize →
              (tick m clk s).state.memoryByte i = (stampTime clk s).memoryByte i))
      ∧ ((clockEdge m v1).o_addr < s.options.mmioOffset →
          (∀ k, k < storeWidth (clockEdge m v1).o_memsize →
            (tick m clk s).state.memoryByte ((clockEdge m v1).o_addr + k)
              = (clockEdge m v1).o_mem / 256 ^ k % 256)
          ∧ (ArraysApart s → ∀ i, i < s.framebufferSize →
              (tick m clk s).state.framebufferByte i = (stampTime clk s).framebufferByte i))
      ∧ ((clockEdge m v1).o_addr = s.options.mmioOffset →
          (clockEdge m v1).o_memsize = 3 → (clockEdge m v1).o_mem = 0xDEADBEEF →
          (tick m clk s).state.framebufferByte 0 = 0xEF
            ∧ (tick m clk s).state.framebufferByte 1 = 0xBE
            ∧ (tick m clk s).state.framebufferByte 2 = 0xAD
            ∧ (tick m clk s).state.framebufferByte 3 = 0xDE))
    ∧ (¬ ((clockEdge m v1).o_memsize = 1 ∨ (clockEdge m v1).o_memsize = 2
          ∨ (clockEdge m v1).o_memsize = 3) →
      (tick m clk s).result = .ok (decide ((clockEdge m v1).i_inst ≠ 0x6f))
      ∧ (tick m clk s).state.heap = (stampTime clk s).heap) := by
  obtain ⟨hopt, hmp, hfp, hfs, -, -, -⟩ := stampTime_fields clk s
  obtain ⟨-, tmp, tfp, -, -⟩ := tick_pointers m clk s
  have hok := (tick_of_load_ok m clk s v v1 hv hmem hins hload).2.2.2
  constructor
  · intro hc hT
    have hst := (storePhase_spec (stampTime clk s) (clockEdge m v1) hwrite hc).2 (Or.inl hT)
    obtain ⟨hres, -, hheap⟩ := hok _ hst
    have hwd := storeWidth_pos _ hc
    have hin : ∀ k, k < storeWidth (clockEdge m v1).o_memsize →
        (tick m clk s).state.heap
            (storePointer (stampTime clk s) (clockEdge m v1)
              + storeAddress (stampTime clk s) (clockEdge m v1) + k)
          = (clockEdge m v1).o_mem / 256 ^ k % 256 := by
      intro k hk
      rw [hheap]
      exact memcpyFromWord_inside _ _ _ _ _ hk
    have hout : ∀ q, (q < storePointer (stampTime clk s) (clockEdge m v1)
                  + storeAddress (stampTime clk s) (clockEdge m v1)
              ∨ storePointer (stampTime clk s) (clockEdge m v1)
                  + storeAddress (stampTime clk s) (clockEdge m v1)
                  + storeWidth (clockEdge m v1).o_memsize ≤ q) →
          (tick m clk s).state.heap q = (stampTime clk s).heap q := by
      intro q hq
      rw [hheap]
      exact memcpyFromWord_outside _ _ _ _ _ hq
    have hfbw : s.options.mmioOffset ≤ (clockEdge m v1).o_addr →
        ∀ k, k < storeWidth (clockEdge m v1).o_memsize →
          (tick m clk s).state.framebufferByte
              ((clockEdge m v1).o_addr - s.options.mmioOffset + k)
            = (clockEdge m v1).o_mem / 256 ^ k % 256 := by
      intro hm k hk
      have := hin k hk
      simp only [storePointer, storeAddress, hopt, hm, if_true, hfp] at this
      unfold CPU.framebufferByte peek
      rw [tfp, ← Nat.add_assoc, this]
      exact Nat.mod_mod _ _
    refine ⟨hres, hin, hout, ?_, ?_, ?_⟩
    · intro hm
      refine ⟨hfbw hm, ?_⟩
      intro hapart i hi
      unfold CPU.memoryByte peek
      rw [tmp, hmp, hout]
      unfold StoreInTarget at hT
      unfold ArraysApart at hapart
      simp only [storePointer, storeAddress, hopt, hm, if_true, hfp, hfs] at hT ⊢
      omega
    · intro hm
      have hm' : ¬ (s.options.mmioOffset ≤ (clockEdge m v1).o_addr) := by omega
      constructor
      · intro k hk
        have := hin k hk
        simp only [storePointer, storeAddress, hopt, hm', if_false, hmp] at this
        unfold CPU.memoryByte peek
        rw [tmp, ← Nat.add_assoc, this]
        exact Nat.mod_mod _ _
      · intro hapart i hi
        unfold CPU.framebufferByte peek
        rw [tfp, hfp, hout]
        unfold StoreInTarget at hT
        unfold ArraysApart at hapart
        simp only [storePointer, storeAddress, hopt, hm', if_false, hmp] at hT ⊢
        omega
    · intro ha h3 hval
      have hm : s.options.mmioOffset ≤ (clockEdge m v1).o_addr := by omega
      have hb := hfbw hm
      rw [h3, hval, ha] at hb
      have b0 := hb 0 (by decide)
      have b1 := hb 1 (by decide)
      have b2 := hb 2 (by decide)
      have b3 := hb 3 (by decide)
      simp only [Nat.sub_self, Nat.zero_add] at b0 b1 b2 b3
      exact ⟨b0, b1, b2, b3⟩
  · intro hc
    have hst := storePhase_idle (stampTime clk s) (clockEdge m v1) (Or.inr hc)
    obtain ⟨hres, -, hheap⟩ := hok _ hst
    exact ⟨hres, hheap⟩

/-- C4 at work: the word `0xDEADBEEF` stored at `mmioOffset` leaves `EF BE AD DE` in
Framebuffer bytes 0 to 3, and the 16 bytes of Memory at zero. -/
theorem tick_store_effect_witness :
    ((tick scripted exampleClock (exampleCPU deadbeefScript)).state.framebufferByte 0 = 0xEF
      ∧ (tick scripted exampleClock (exampleCPU deadbeefScript)).state.framebufferByte 1 = 0xBE
      ∧ (tick scripted exampleClock (exampleCPU deadbeefScript)).state.framebufferByte 2 = 0xAD
      ∧ (tick scripted exampleClock (exampleCPU deadbeefScript)).state.framebufferByte 3 = 0xDE)
    ∧ (List.range 16).map (tick scripted exampleClock (exampleCPU deadbeefScript)).state.memoryByte
        = List.replicate 16 0 :=
  ⟨((tick_store_effect scripted exampleClock (exampleCPU deadbeefScript)
      (VCPU.zero deadbeefScript)
      (fetchEval scripted (stampTime exampleClock (exampleCPU deadbeefScript))
        (VCPU.zero deadbeefScript))
      rfl (by decide) (by decide) rfl (by decide)).1 (by decide) (by decide)).2.2.2.2.2
        rfl rfl rfl,
    by decide⟩

/-! ## C5: the cycle counter and the halt check -/

/-- A step that fails at one of its three guards. -/
theorem tick_of_guard_failure {σ : Type} (m : Model σ) (clk : Clock) (s : CPU σ)
    (h : s.vcpu = none ∨ s.memory = 0
      ∨ (s.options.separateInstructions = true ∧ s.instructions = 0)) :
    (∃ e, (tick m clk s).result = .error e) ∧ (tick m clk s).state.count = s.count := by
  cases hv : s.vcpu with
  | none => simp [tick, hv]
  | some v =>
    by_cases hmem : s.memory = 0
    · simp [tick, hv, hmem]
    · rcases h with h | h | ⟨h1, h2⟩
      · rw [hv] at h; cases h
      · exact absurd h hmem
      · simp [tick, hv, hmem, h1, h2]

/-- Without the time-offset feature the fetch reads the instruction source as it was. -/
theorem instructionWord_stampTime {σ : Type} (clk : Clock) (s : CPU σ) (i : Nat)
    (ht : s.options.useTimeOffset = false) :
    (stampTime clk s).instructionWord i = s.instructionWord i := by
  obtain ⟨hopt, hmp, -, -, hip, -, -⟩ := stampTime_fields clk s
  unfold CPU.instructionWord
  rw [hopt, hmp, hip, stampTime_heap clk s ht]

/-- C5, as stated, fails: a step whose load is out of range (address 14 of a 16-byte
Memory) is an invocation of `CPU::tick` that leaves the cycle counter where it was. -/
theorem tick_raising_keeps_count :
    (tick scripted exampleClock (exampleCPU badLoadScript)).result
        = .error (.memoryReadOutOfRange 0x1000E)
    ∧ (exampleCPU badLoadScript).count = 0
    ∧ (tick scripted exampleClock (exampleCPU badLoadScript)).state.count = 0 :=
  ⟨rfl, rfl, rfl⟩

/-- C5, amended.  An invocation of `CPU::tick` that completes without raising increments
the cycle counter by exactly one and returns `false` if and only if the instruction word
fetched in that step equals `0x0000006F`; it completes exactly when the harness is
initialised and neither the load phase nor the store phase raises.  An invocation that
raises leaves the counter unchanged.  In particular, with `memorySize = 1024`,
`mmioOffset = 0x80000000`, no framebuffer, no time offset, the cycle counter at 0 and the
instruction `0x0000006F` fetched from address 0 by a core that requests neither a load nor
a store, one step gives cycle count 1, reports termination and leaves Memory all zero. -/
theorem tick_count_and_halt {σ : Type} (m : Model σ) (clk : Clock) (s : CPU σ) :
    (∀ v b, s.vcpu = some v → (tick m clk s).result = .ok b →
        (tick m clk s).state.count = s.count + 1
          ∧ (b = false ↔ (stampTime clk s).instructionWord (v.o_pc / 4) = 0x6f))
    ∧ ((∃ b, (tick m clk s).result = .ok b) ↔
        ∃ v v1 h, s.vcpu = some v ∧ s.memory ≠ 0
          ∧ (s.options.separateInstructions = true → s.instructions ≠ 0)
          ∧ loadPhase (stampTime clk s) (fetchEval m (stampTime clk s) v) = .ok v1
          ∧ storePhase (stampTime clk s) (clockEdge m v1) = .ok h)
    ∧ (∀ e, (tick m clk s).result = .error e → (tick m clk s).state.count = s.count)
    ∧ (∀ v, s.vcpu = some v → s.memory ≠ 0 →
        (s.options.separateInstructions = true → s.instructions ≠ 0) →
        s.options.memorySize = 1024 → s.options.mmioOffset = 0x80000000 →
        s.framebuffer = 0 → s.framebufferSize = 0 → s.options.useTimeOffset = false →
        s.count = 0 → v.o_pc = 0 → s.instructionWord 0 = 0x6f →
        (fetchEval m (stampTime clk s) v).o_load = 0 →
        (clockEdge m (fetchEval m (stampTime clk s) v)).o_write = 0 →
        (∀ i, i < 1024 → s.memoryByte i = 0) →
        (tick m clk s).result = .ok false ∧ (tick m clk s).state.count = 1
          ∧ ∀ i, i < 1024 → (tick m clk s).state.memoryByte i = 0) := by
  -- the three ways through a step
  have hcases : (∃ e, (tick m clk s).result = .error e ∧ (tick m clk s).state.count = s.count)
      ∨ ∃ v v1 h, s.vcpu = some v ∧ s.memory ≠ 0
          ∧ (s.options.separateInstructions = true → s.instructions ≠ 0)
          ∧ loadPhase (stampTime clk s) (fetchEval m (stampTime clk s) v) = .ok v1
          ∧ storePhase (stampTime clk s) (clockEdge m v1) = .ok h
          ∧ (tick m clk s).result = .ok (decide ((clockEdge m v1).i_inst ≠ 0x6f))
          ∧ (tick m clk s).state.count = s.count + 1
          ∧ (tick m clk s).state.heap = h := by
    cases hv : s.vcpu with
    | none =>
      obtain ⟨⟨e, he⟩, hc⟩ := tick_of_guard_failure m clk s (Or.inl hv)
      exact Or.inl ⟨e, he, hc⟩
    | some v =>
      by_cases hmem : s.memory = 0
      · obtain ⟨⟨e, he⟩, hc⟩ := tick_of_guard_failure m clk s (Or.inr (Or.inl hmem))
        exact Or.inl ⟨e, he, hc⟩
      · by_cases hg : s.options.separateInstructions = true ∧ s.instructions = 0
        · obtain ⟨⟨e, he⟩, hc⟩ := tick_of_guard_failure m clk s (Or.inr (Or.inr hg))
          exact Or.inl ⟨e, he, hc⟩
        · have hins : s.options.separateInstructions = true → s.instructions ≠ 0 :=
            fun hsep hi => hg ⟨hsep, hi⟩
          cases hld : loadPhase (stampTime clk s) (fetchEval m (stampTime clk s) v) with
          | error e =>
            obtain ⟨he, hc, -⟩ := tick_of_load_error m clk s v e hv hmem hins hld
            exact Or.inl ⟨e, he, hc⟩
          | ok v1 =>
            obtain ⟨-, -, herr, hok⟩ := tick_of_load_ok m clk s v v1 hv hmem hins hld
            cases hst : storePhase (stampTime clk s) (clockEdge m v1) with
            | error e =>
              obtain ⟨he, hc, -⟩ := herr e hst
              exact Or.inl ⟨e, he, hc⟩
            | ok h =>
              obtain ⟨hr, hc, hh⟩ := hok h hst
              exact Or.inr ⟨v, v1, h, rfl, hmem, hins, hld, hst, hr, hc, hh⟩
  refine ⟨?_, ?_, ?_, ?_⟩
  · intro v b hv hb
    rcases hcases with ⟨e, he, -⟩ | ⟨v', v1, h, hv', -, -, hld, -, hr, hc, -⟩
    · rw [he] at hb; cases hb
    · rw [hv] at hv'
      cases hv'
      refine ⟨hc, ?_⟩
      rw [hr] at hb
      have hb' : decide ((clockEdge m v1).i_inst ≠ 0x6f) = b := by
        injection hb
      have hinst : (clockEdge m v1).i_inst = (stampTime clk s).instructionWord (v.o_pc / 4) := by
        have h1 : v1.i_inst = (fetchEval m (stampTime clk s) v).i_inst := by
          unfold loadPhase at hld
          simp only [] at hld
          split at hld
          · split at hld
            · split at hld
              · cases hld
              · cases hld; rfl
            · split at hld
              · cases hld
              · split at hld
                · cases hld
                · cases hld; rfl
          · cases hld; rfl
        rw [(clockEdge_inputs m v1).1, h1, fetchEval_i_inst]
      rw [← hinst, ← hb']
      simp
  · constructor
    · rintro ⟨b, hb⟩
      rcases hcases with ⟨e, he, -⟩ | ⟨v, v1, h, hv, hmem, hins, hld, hst, -⟩
      · rw [he] at hb; cases hb
      · exact ⟨v, v1, h, hv, hmem, hins, hld, hst⟩
    · rintro ⟨v, v1, h, hv, hmem, hins, hld, hst⟩
      exact ⟨_, ((tick_of_load_ok m clk s v v1 hv hmem hins hld).2.2.2 h hst).1⟩
  · intro e he
    rcases hcases with ⟨e', -, hc⟩ | ⟨v, v1, h, -, -, -, -, -, hr, -⟩
    · exact hc
    · rw [hr] at he; cases he
  · intro v hv hmem hins hsize hmmio hfb hfs ht hcount hpc hword hquietL hquietS hzero
    have hld : loadPhase (stampTime clk s) (fetchEval m (stampTime clk s) v)
        = .ok (fetchEval m (stampTime clk s) v) := by
      simp [loadPhase, hquietL]
    have hst := storePhase_idle (stampTime clk s)
      (clockEdge m (fetchEval m (stampTime clk s) v)) (Or.inl hquietS)
    obtain ⟨hr, hc, hh⟩ := (tick_of_load_ok m clk s v _ hv hmem hins hld).2.2.2 _ hst
    have hinst : (clockEdge m (fetchEval m (stampTime clk s) v)).i_inst = 0x6f := by
      rw [(clockEdge_inputs m _).1, fetchEval_i_inst, instructionWord_stampTime clk s _ ht, hpc]
      exact hword
    refine ⟨?_, ?_, ?_⟩
    · rw [hr, hinst]; rfl
    · rw [hc, hcount]
    · intro i hi
      have := hzero i hi
      unfold CPU.memoryByte at this ⊢
      rw [(tick_pointers m clk s).2.1, hh, stampTime_heap clk s ht]
      exact this

set_option maxRecDepth 100000 in
set_option maxHeartbeats 1000000 in
/-- C5, amended, at work on the harness that `CPU::CPU` builds for the halt scenario: one
step reports termination with cycle count 1 and Memory still zero. -/
theorem tick_count_and_halt_witness :
    (tick scripted exampleClock haltCPU).result = .ok false
    ∧ (tick scripted exampleClock haltCPU).state.count = 1
    ∧ (tick scripted exampleClock haltCPU).state.memoryByte 0 = 0
    ∧ (tick scripted exampleClock haltCPU).state.memoryByte 1023 = 0 :=
  have h := (tick_count_and_halt scripted exampleClock haltCPU).2.2.2 _ rfl (by decide)
    (by decide) rfl rfl rfl rfl rfl rfl rfl rfl rfl rfl (by decide)
  ⟨h.1, h.2.1, h.2.2 0 (by decide), h.2.2 1023 (by decide)⟩

/-! ## C6: construction and the overlap of Memory and MMIO -/

theorem andThen_agree {σ α : Type} (o1 o2 : Outcome σ Unit) (f : CPU σ → Outcome σ α)
    (hr : o1.result = o2.result) (hs : Agree o1.state o2.state)
    (hf : ∀ s t, Agree s t → (f s).result = (f t).result ∧ Agree (f s).state (f t).state) :
    (o1.andThen f).result = (o2.andThen f).result
      ∧ Agree (o1.andThen f).state (o2.andThen f).state := by
  unfold Outcome.andThen
  rw [← hr]
  cases h1 : o1.result with
  | error e => exact ⟨rfl, hs⟩
  | ok u => exact hf _ _ hs

theorem resetMemory_agree {σ : Type} (a : Allocator) (s t : CPU σ) (h : Agree s t) :
    (resetMemory a s).result = (resetMemory a t).result
      ∧ Agree (resetMemory a s).state (resetMemory a t).state := by
  obtain ⟨h1, h2, h3, h4, h5, h6, h7⟩ := h
  exact ⟨rfl, h1, h2, h3, h4, h5, rfl, h7⟩

theorem initFramebuffer_agree {σ : Type} (a : Allocator) (c : Nat) (s t : CPU σ)
    (h : Agree s t) :
    (initFramebuffer a c s).result = (initFramebuffer a c t).result
      ∧ Agree (initFramebuffer a c s).state (initFramebuffer a c t).state := by
  obtain ⟨h1, h2, h3, h4, h5, h6, h7⟩ := h
  unfold initFramebuffer
  rw [h1, h2]
  by_cases hz : t.options.width = 0 ∧ t.options.height = 0
  · rw [if_pos hz, if_pos hz]
    exact ⟨rfl, h1, h2, h3, h4, h5, h6, h7⟩
  · rw [if_neg hz, if_neg hz]
    by_cases hn : t.options.width ≠ 0 ∧ t.options.height ≠ 0
    · rw [if_pos hn, if_pos hn]
      exact ⟨rfl, h1, h2, h3, h4, h5, h6, h7⟩
    · rw [if_neg hn, if_neg hn]
      exact ⟨rfl, h1, h2, h3, h4, h5, h6, h7⟩

theorem loadProgram_agree {σ : Type} (fs : FileSystem) (a : Allocator) (s t : CPU σ)
    (h : Agree s t) :
    (loadProgram fs a s).result = (loadProgram fs a t).result
      ∧ Agree (loadProgram fs a s).state (loadProgram fs a t).state := by
  obtain ⟨h1, h2, h3, h4, h5, h6, h7⟩ := h
  unfold loadProgram
  rw [h3]
  by_cases hpe : t.options.programFilename = ""
  · rw [if_pos hpe, if_pos hpe]
    exact ⟨rfl, h1, h2, h3, h4, h5, h6, h7⟩
  · rw [if_neg hpe, if_neg hpe]
    cases hf : fs t.options.programFilename with
    | missing => exact ⟨by simp [h3], h1, h2, h3, h4, h5, h6, h7⟩
    | unreadable n => exact ⟨rfl, h1, h2, h3, h4, h5, h6, h7⟩
    | readable bytes =>
      simp only [h5]
      by_cases hsep : t.options.separateInstructions = true
      · rw [if_pos hsep, if_pos hsep]
        exact ⟨rfl, h1, h2, h3, h4, h5, h6, rfl⟩
      · rw [if_neg hsep, if_neg hsep]
        exact ⟨rfl, h1, h2, h3, h4, h5, h6, rfl⟩

theorem loadDataFile_agree {σ : Type} (fs : FileSystem) (s t : CPU σ) (h : Agree s t) :
    (loadDataFile fs s).result = (loadDataFile fs t).result
      ∧ Agree (loadDataFile fs s).state (loadDataFile fs t).state := by
  obtain ⟨h1, h2, h3, h4, h5, h6, h7⟩ := h
  unfold loadDataFile
  rw [h4]
  by_cases hde : t.options.dataFilename = ""
  · rw [if_pos hde, if_pos hde]
    exact ⟨rfl, h1, h2, h3, h4, h5, h6, h7⟩
  · rw [if_neg hde, if_neg hde]
    cases hf : fs t.options.dataFilename with
    | missing => exact ⟨by simp [h4], h1, h2, h3, h4, h5, h6, h7⟩
    | unreadable n => exact ⟨rfl, h1, h2, h3, h4, h5, h6, h7⟩
    | readable bytes => exact ⟨rfl, h1, h2, h3, h4, h5, h6, h7⟩

theorem initVCPU_agree {σ : Type} (m : Model σ) (fresh : VCPU σ) (s t : CPU σ)
    (h : Agree s t) :
    (initVCPU m fresh s).result = (initVCPU m fresh t).result
      ∧ Agree (initVCPU m fresh s).state (initVCPU m fresh t).state := by
  obtain ⟨h1, h2, h3, h4, h5, h6, h7⟩ := h
  unfold initVCPU
  rw [h6, h5, h7]
  by_cases hm : t.memory = 0
  · rw [if_pos hm, if_pos hm]
    exact ⟨rfl, h1, h2, h3, h4, h5, h6, h7⟩
  · rw [if_neg hm, if_neg hm]
    by_cases hg : (t.options.separateInstructions && t.instructions == 0) = true
    · rw [if_pos hg, if_pos hg]
      exact ⟨rfl, h1, h2, h3, h4, h5, h6, h7⟩
    · rw [if_neg hg, if_neg hg]
      exact ⟨rfl, h1, h2, h3, h4, h5, rfl, rfl⟩

/-- Nothing in `CPU::init` looks at `mmioOffset`: whether construction fails, and with
what, does not depend on it. -/
theorem init_ignores_mmioOffset {σ : Type} (m : Model σ) (fresh : VCPU σ) (fs : FileSystem)
    (a : Allocator) (heap : Heap) (o : Options) (x : Nat) :
    (CPU.new m fresh fs a heap { o with mmioOffset := x }).result
      = (CPU.new m fresh fs a heap o).result := by
  unfold CPU.new init
  have h0 : Agree (CPU.blank (σ := σ) { o with mmioOffset := x } heap) (CPU.blank o heap) :=
    ⟨rfl, rfl, rfl, rfl, rfl, rfl, rfl⟩
  have h1 := resetMemory_agree a _ _ h0
  refine (andThen_agree _ _ _ h1.1 h1.2 ?_).1
  intro s t hst
  have h2 := initFramebuffer_agree a 3 s t hst
  refine andThen_agree _ _ _ h2.1 h2.2 ?_
  intro s t hst
  have h3 := loadProgram_agree fs a s t hst
  refine andThen_agree _ _ _ h3.1 h3.2 ?_
  intro s t hst
  have h4 := loadDataFile_agree fs s t hst
  refine andThen_agree _ _ _ h4.1 h4.2 ?_
  intro s t hst
  exact initVCPU_agree m fresh s t hst

/-- A step of an initialised harness whose core requests neither a load nor a store. -/
theorem tick_quiet {σ : Type} (m : Model σ) (clk : Clock) (s : CPU σ) (v : VCPU σ)
    (hv : s.vcpu = some v) (hmem : s.memory ≠ 0)
    (hins : s.options.separateInstructions = true → s.instructions ≠ 0)
    (hquietL : (fetchEval m (stampTime clk s) v).o_load = 0)
    (hquietS : (clockEdge m (fetchEval m (stampTime clk s) v)).o_write = 0) :
    (tick m clk s).result
        = .ok (decide ((stampTime clk s).instructionWord (v.o_pc / 4) ≠ 0x6f))
      ∧ (tick m clk s).state.count = s.count + 1
      ∧ (tick m clk s).state.heap = (stampTime clk s).heap := by
  have hld : loadPhase (stampTime clk s) (fetchEval m (stampTime clk s) v)
      = .ok (fetchEval m (stampTime clk s) v) := by
    simp [loadPhase, hquietL]
  have hst := storePhase_idle (stampTime clk s)
    (clockEdge m (fetchEval m (stampTime clk s) v)) (Or.inl hquietS)
  exact (tick_of_load_ok m clk s v _ hv hmem hins hld).2.2.2 _ hst

set_option maxHeartbeats 1000000 in
/-- C6 fails on the code.  Options with `mmioOffset = 512 < memorySize = 1024` are
accepted by `CPU::CPU`: `CPU::init` raises nothing and leaves a harness that can be
stepped, while `main` of `CPU_sim.cpp` gives up on the same two values. -/
theorem construction_accepts_overlap :
    overlapOptions.mmioOffset < overlapOptions.memorySize
    ∧ (CPU.new scripted (VCPU.zero []) haltFiles exampleAllocator (fun _ => 0xCC)
        overlapOptions).result = .ok ()
    ∧ overlapCPU.options.mmioOffset = 512 ∧ overlapCPU.options.memorySize = 1024
    ∧ (tick scripted exampleClock overlapCPU).result = .ok false
    ∧ simArgumentCheck false true true overlapOptions.mmioOffset overlapOptions.memorySize
        = some 1 :=
  ⟨by decide, rfl, rfl, rfl,
    (tick_quiet scripted exampleClock overlapCPU _ rfl (by decide) (by decide) rfl rfl).1, rfl⟩

/-! ## C7: the framebuffer at construction -/

/-- C7, as stated, fails: for `width = height = 65536`, both non-zero, the size is
computed in `uint32_t` and comes out as 0, not `65536 * 65536 * 3`. -/
theorem framebuffer_size_wraps :
    (initFramebuffer exampleAllocator 3 wideCPU).result = .ok ()
    ∧ wideCPU.options.width = 65536 ∧ wideCPU.options.height = 65536
    ∧ (initFramebuffer exampleAllocator 3 wideCPU).state.framebufferSize = 0
    ∧ 65536 * 65536 * 3 = 12884901888 :=
  ⟨rfl, rfl, rfl, rfl, rfl⟩

/-- C7, amended.  `CPU::initFramebuffer` fails if and only if exactly one of width and
height is zero, and then with the invalid-argument failure.  When both are zero the
framebuffer is absent (null) with `framebufferSize = 0`.  When both are non-zero the
framebuffer is a fresh zero-filled array and `framebufferSize` equals
`width * height * 3` reduced modulo `2 ^ 32`, which is `width * height * 3` whenever that
product is below `2 ^ 32`. -/
theorem initFramebuffer_spec {σ : Type} (a : Allocator) (s : CPU σ) :
    ((∃ e, (initFramebuffer a 3 s).result = .error e) ↔
        (s.options.width = 0 ∧ s.options.height ≠ 0)
          ∨ (s.options.width ≠ 0 ∧ s.options.height = 0))
    ∧ ((s.options.width = 0 ∧ s.options.height ≠ 0)
          ∨ (s.options.width ≠ 0 ∧ s.options.height = 0) →
        (initFramebuffer a 3 s).result = .error .invalidDimensions)
    ∧ (s.options.width = 0 ∧ s.options.height = 0 →
        (initFramebuffer a 3 s).result = .ok ()
          ∧ (initFramebuffer a 3 s).state.framebuffer = 0
          ∧ (initFramebuffer a 3 s).state.framebufferSize = 0)
    ∧ (s.options.width ≠ 0 ∧ s.options.height ≠ 0 →
        (initFramebuffer a 3 s).result = .ok ()
          ∧ (initFramebuffer a 3 s).state.framebuffer = a.framebufferAt
          ∧ (initFramebuffer a 3 s).state.framebufferSize
              = s.options.width * s.options.height * 3 % 2 ^ 32
          ∧ (s.options.width * s.options.height * 3 < 2 ^ 32 →
              (initFramebuffer a 3 s).state.framebufferSize
                = s.options.width * s.options.height * 3)
          ∧ ∀ i, i < (initFramebuffer a 3 s).state.framebufferSize →
              (initFramebuffer a 3 s).state.framebufferByte i = 0) := by
  unfold initFramebuffer
  by_cases hw : s.options.width = 0 <;> by_cases hh : s.options.height = 0
  · simp [hw, hh]
  · simp [hw, hh]
  · simp [hw, hh]
  · have hsize : s.options.width * s.options.height % 2 ^ 32 * (3 % 2 ^ 32) % 2 ^ 32
        = s.options.width * s.options.height * 3 % 2 ^ 32 := by
      rw [Nat.mod_eq_of_lt (show 3 < 2 ^ 32 by norm_num), Nat.mod_mul_mod]
    rw [if_neg (fun h => hw h.1), if_pos ⟨hw, hh⟩]
    refine ⟨⟨?_, ?_⟩, ?_, ?_, ?_⟩
    · rintro ⟨e, he⟩
      cases he
    · rintro (⟨h, -⟩ | ⟨-, h⟩)
      · exact absurd h hw
      · exact absurd h hh
    · rintro (⟨h, -⟩ | ⟨-, h⟩)
      · exact absurd h hw
      · exact absurd h hh
    · rintro ⟨h, -⟩
      exact absurd h hw
    · intro _
      refine ⟨rfl, rfl, hsize, ?_, ?_⟩
      · intro hlt
        exact hsize.trans (Nat.mod_eq_of_lt hlt)
      · intro i hi
        have hi2 : i < s.options.width * s.options.height % 2 ^ 32 * (3 % 2 ^ 32) % 2 ^ 32 := hi
        exact congrArg (· % 256)
          (zeroFill_inside _ _ _ _ ⟨Nat.le_add_right _ _, Nat.add_lt_add_left hi2 _⟩)

/-- C7, amended, at work: a 4 x 4 framebuffer is 48 zero bytes. -/
theorem initFramebuffer_spec_witness :
    (initFramebuffer exampleAllocator 3 (exampleCPU [])).result = .ok ()
    ∧ (initFramebuffer exampleAllocator 3 (exampleCPU [])).state.framebufferSize = 48 :=
  have h := (initFramebuffer_spec exampleAllocator (exampleCPU [])).2.2.2
    ⟨by decide, by decide⟩
  ⟨h.1, h.2.2.2.1 (by decide)⟩

/-! ## C8: the fetch -/

/-- The load phase leaves the instruction input alone. -/
theorem loadPhase_i_inst {σ : Type} (s : CPU σ) (v v1 : VCPU σ)
    (h : loadPhase s v = .ok v1) : v1.i_inst = v.i_inst := by
  unfold loadPhase at h
  simp only [] at h
  split at h
  · split at h
    · split at h
      · cases h
      · cases h; rfl
    · split at h
      · cases h
      · split at h
        · cases h
        · cases h; rfl
  · cases h; rfl

/-- The word the instruction input holds after a step of an initialised harness, and where
a failure of the step comes from.  (The address space of the embedding can be read at
every address.) -/
theorem tick_fetch_word {σ : Type} (m : Model σ) (clk : Clock) (s : CPU σ) (v : VCPU σ)
    (hv : s.vcpu = some v) (hmem : s.memory ≠ 0)
    (hins : s.options.separateInstructions = true → s.instructions ≠ 0) :
    (tick m clk s).state.vcpu.map VCPU.i_inst
        = some ((stampTime clk s).instructionWord (v.o_pc / 4))
    ∧ (s.options.separateInstructions = true →
        (stampTime clk s).instructionWord (v.o_pc / 4)
          = readWord (stampTime clk s).heap (s.instructions + 4 * (v.o_pc / 4)))
    ∧ (s.options.separateInstructions = false →
        (stampTime clk s).instructionWord (v.o_pc / 4)
          = readWord (stampTime clk s).heap (s.memory + 4 * (v.o_pc / 4)))
    ∧ (∀ e, (tick m clk s).result = .error e →
        loadPhase (stampTime clk s) (fetchEval m (stampTime clk s) v) = .error e
          ∨ ∃ v1, loadPhase (stampTime clk s) (fetchEval m (stampTime clk s) v) = .ok v1
              ∧ storePhase (stampTime clk s) (clockEdge m v1) = .error e) := by
  obtain ⟨hopt, hmp, -, -, hip, -, -⟩ := stampTime_fields clk s
  refine ⟨?_, ?_, ?_, ?_⟩
  · cases hld : loadPhase (stampTime clk s) (fetchEval m (stampTime clk s) v) with
    | error e =>
      rw [tick_guards m clk s v hv hmem hins, hld]
      rfl
    | ok v1 =>
      rw [(tick_of_load_ok m clk s v v1 hv hmem hins hld).1]
      show some (clockEdge m v1).i_inst = _
      rw [(clockEdge_inputs m v1).1, loadPhase_i_inst _ _ _ hld, fetchEval_i_inst]
  · intro hsep
    unfold CPU.instructionWord
    rw [hopt, hip, hsep]
    rfl
  · intro hsep
    unfold CPU.instructionWord
    rw [hopt, hmp, hsep]
    rfl
  · intro e he
    cases hld : loadPhase (stampTime clk s) (fetchEval m (stampTime clk s) v) with
    | error e2 =>
      left
      have := (tick_of_load_error m clk s v e2 hv hmem hins hld).1
      rw [this] at he
      cases he
      rfl
    | ok v1 =>
      right
      exact ⟨v1, rfl, (tick_of_load_ok m clk s v v1 hv hmem hins hld).2.1 e he⟩

/-- A step never reads `instructionCount`. -/
theorem tick_ignores_instructionCount {σ : Type} (m : Model σ) (clk : Clock) (s : CPU σ)
    (n : Nat) :
    (tick m clk { s with instructionCount := n }).result = (tick m clk s).result
      ∧ (tick m clk { s with instructionCount := n }).state.vcpu = (tick m clk s).state.vcpu
      ∧ (tick m clk { s with instructionCount := n }).state.heap = (tick m clk s).state.heap := by
  have hstamp : stampTime clk { s with instructionCount := n }
      = { stampTime clk s with instructionCount := n } := by
    unfold stampTime
    by_cases h0 : s.start = 0 <;> by_cases ht : s.options.useTimeOffset = true
    all_goals simp [h0, ht]
  rcases Option.eq_none_or_eq_some s.vcpu with hv | ⟨v, hv⟩
  · simp [tick, hv]
  · by_cases hmem : s.memory = 0
    · simp [tick, hv, hmem]
    · by_cases hg : s.options.separateInstructions = true ∧ s.instructions = 0
      · simp [tick, hv, hmem, hg.1, hg.2]
      · have hins : s.options.separateInstructions = true → s.instructions ≠ 0 :=
          fun hsep hi => hg ⟨hsep, hi⟩
        have hld : loadPhase (stampTime clk { s with instructionCount := n })
            (fetchEval m (stampTime clk { s with instructionCount := n }) v)
            = loadPhase (stampTime clk s) (fetchEval m (stampTime clk s) v) := by
          rw [hstamp]
          rfl
        cases hl : loadPhase (stampTime clk s) (fetchEval m (stampTime clk s) v) with
        | error e =>
          obtain ⟨a1, -, a3⟩ := tick_of_load_error m clk { s with instructionCount := n } v e
            hv hmem hins (hld.trans hl)
          obtain ⟨b1, -, b3⟩ := tick_of_load_error m clk s v e hv hmem hins hl
          refine ⟨a1.trans b1.symm, ?_, ?_⟩
          · rw [tick_guards m clk { s with instructionCount := n } v hv hmem hins,
              tick_guards m clk s v hv hmem hins, hld, hl, hstamp]
            rfl
          · rw [a3, b3, hstamp]
        | ok v1 =>
          obtain ⟨a1, -, aerr, aok⟩ := tick_of_load_ok m clk { s with instructionCount := n }
            v v1 hv hmem hins (hld.trans hl)
          obtain ⟨b1, -, berr, bok⟩ := tick_of_load_ok m clk s v v1 hv hmem hins hl
          have hst : storePhase (stampTime clk { s with instructionCount := n })
              (clockEdge m v1) = storePhase (stampTime clk s) (clockEdge m v1) := by
            rw [hstamp]
            rfl
          refine ⟨?_, a1.trans b1.symm, ?_⟩
          · cases hs : storePhase (stampTime clk s) (clockEdge m v1) with
            | error e => rw [(aerr e (hst.trans hs)).1, (berr e hs).1]
            | ok h => rw [(aok h (hst.trans hs)).1, (bok h hs).1]
          · cases hs : storePhase (stampTime clk s) (clockEdge m v1) with
            | error e =>
              rw [(aerr e (hst.trans hs)).2.2, (berr e hs).2.2, hstamp]
            | ok h => rw [(aok h (hst.trans hs)).2.2, (bok h hs).2.2]

/-- What the two `memcpy`-style copies of `CPU::loadData` do to the address space of the
embedding, which can be written at every address. -/
theorem loadData_copy {σ : Type} (data : List Nat) (offset : Nat) (s : CPU σ) :
    (s.memory ≠ 0 →
      (loadData data offset s).result = .ok ()
      ∧ (loadData data offset s).state.memory = s.memory
      ∧ (∀ k, k < data.length →
          (loadData data offset s).state.heap (s.memory + offset + k) = data.getD k 0 % 256)
      ∧ (∀ q, q < s.memory + offset ∨ s.memory + offset + data.length ≤ q →
          (loadData data offset s).state.heap q = s.heap q)
      ∧ (offset + data.length ≤ s.options.memorySize →
          (∀ k, k < data.length →
            (loadData data offset s).state.memoryByte (offset + k) = data.getD k 0 % 256)
          ∧ (∀ i, i < s.options.memorySize → i < offset ∨ offset + data.length ≤ i →
            (loadData data offset s).state.memoryByte i = s.memoryByte i)))
    ∧ (s.memory = 0 →
      (loadData data offset s).result = .error .memoryNotInitialized
      ∧ (loadData data offset s).state.heap = s.heap)
    ∧ (∀ (fs : FileSystem) (bytes : List Nat), s.options.dataFilename ≠ "" →
        fs s.options.dataFilename = .readable bytes →
      (loadDataFile fs s).result = .ok ()
      ∧ (∀ k, k < bytes.length →
          (loadDataFile fs s).state.heap (s.memory + s.options.dataOffset + k)
            = bytes.getD k 0 % 256)
      ∧ (∀ q, q < s.memory + s.options.dataOffset
            ∨ s.memory + s.options.dataOffset + bytes.length ≤ q →
          (loadDataFile fs s).state.heap q = s.heap q)) := by
  refine ⟨?_, ?_, ?_⟩
  · intro hm
    have hE : loadData data offset s
        = ⟨{ s with heap := memcpyBytes s.heap (s.memory + offset) data }, .ok ()⟩ := by
      unfold loadData
      rw [if_neg hm]
    rw [hE]
    have hin : ∀ k, k < data.length →
        memcpyBytes s.heap (s.memory + offset) data (s.memory + offset + k)
          = data.getD k 0 % 256 :=
      fun k hk => memcpyBytes_inside data s.heap (s.memory + offset) k hk
    have hout : ∀ q, q < s.memory + offset ∨ s.memory + offset + data.length ≤ q →
        memcpyBytes s.heap (s.memory + offset) data q = s.heap q :=
      fun q hq => memcpyBytes_outside data s.heap (s.memory + offset) q hq
    refine ⟨rfl, rfl, hin, hout, ?_⟩
    intro hfit
    constructor
    · intro k hk
      show memcpyBytes s.heap (s.memory + offset) data (s.memory + (offset + k)) % 256 = _
      rw [← Nat.add_assoc, hin k hk, Nat.mod_mod]
    · intro i hi hi2
      show memcpyBytes s.heap (s.memory + offset) data (s.memory + i) % 256
        = s.heap (s.memory + i) % 256
      rw [hout _ (by omega)]
  · intro hm
    unfold loadData
    rw [if_pos hm]
    exact ⟨rfl, rfl⟩
  · intro fs bytes hname hfile
    have hE : loadDataFile fs s
        = ⟨{ s with heap := memcpyBytes s.heap (s.memory + s.options.dataOffset) bytes },
            .ok ()⟩ := by
      unfold loadDataFile
      rw [if_neg hname, hfile]
    rw [hE]
    exact ⟨rfl, fun k hk => memcpyBytes_inside bytes s.heap _ k hk,
      fun q hq => memcpyBytes_outside bytes s.heap _ q hq⟩

theorem getD_take_drop (bytes : List Nat) (a c k : Nat) (hk : k < c) :
    ((bytes.drop a).take c).getD k 0 = bytes.getD (a + k) 0 := by
  simp [List.getD_eq_getElem?_getD, List.getElem?_take, hk]

/-- The read loop of the Loader copies the first `chunk * n` bytes of the stream and
nothing else. -/
theorem fileReadLoop_spec (c : Nat) (h : Heap) (dst : Nat) (bytes : List Nat) (n : Nat)
    (hn : c * n ≤ bytes.length) :
    (∀ j, j < c * n → fileReadLoop c h dst bytes n (dst + j) = bytes.getD j 0 % 256)
    ∧ (∀ q, q < dst ∨ dst + c * n ≤ q → fileReadLoop c h dst bytes n q = h q) := by
  induction n with
  | zero =>
    constructor
    · intro j hj
      omega
    · intro q _
      rfl
  | succ n ih =>
    have hmul : c * (n + 1) = c * n + c := Nat.mul_succ c n
    obtain ⟨ihin, ihout⟩ := ih (by omega)
    have hlen : ((bytes.drop (c * n)).take c).length = c := by
      rw [List.length_take, List.length_drop]
      omega
    constructor
    · intro j hj
      rw [fileReadLoop]
      by_cases hlow : j < c * n
      · rw [memcpyBytes_outside _ _ _ _ (by omega)]
        exact ihin j hlow
      · have hk : j - c * n < ((bytes.drop (c * n)).take c).length := by omega
        have := memcpyBytes_inside _ (fileReadLoop c h dst bytes n) (dst + c * n) _ hk
        rw [show dst + c * n + (j - c * n) = dst + j by omega] at this
        rw [this, getD_take_drop _ _ _ _ (by omega)]
        rw [show c * n + (j - c * n) = j by omega]
    · intro q hq
      rw [fileReadLoop, memcpyBytes_outside _ _ _ _ (by omega)]
      exact ihout q (by omega)

/-- C10, as stated, fails: a ten-byte image is not rejected in separated-instruction
mode; `CPU::loadProgram` raises nothing and sets up two instruction words. -/
theorem loadProgram_accepts_ten_bytes :
    unloadedCPU.options.separateInstructions = true
    ∧ tenByteFiles unloadedCPU.options.programFilename
        = .readable [0x13, 0, 0, 0, 0x93, 0, 0x10, 0, 0x6f, 0]
    ∧ (loadProgram tenByteFiles exampleAllocator unloadedCPU).result = .ok ()
    ∧ (loadProgram tenByteFiles exampleAllocator unloadedCPU).state.instructionCount = 2
    ∧ (loadProgram tenByteFiles exampleAllocator unloadedCPU).state.instructionWord 1
        = 0x00100093 :=
  ⟨rfl, rfl, rfl, rfl, rfl⟩

/-- C10, amended.  In separated-instruction mode `CPU::loadProgram` on a readable image of
`n` bytes raises nothing, for every `n`: it sets `instructionCount = n / 4` and populates
exactly the `n / 4` instruction words at indices `0 .. n / 4 - 1`, word `i` being bytes
`4 i .. 4 i + 3` of the image, least significant first, and touches no other byte; when
`n` is not a multiple of 4 the trailing `n mod 4` bytes are left out. -/
theorem loadProgram_separated {σ : Type} (fs : FileSystem) (a : Allocator) (s : CPU σ)
    (bytes : List Nat) (hsep : s.options.separateInstructions = true)
    (hname : s.options.programFilename ≠ "")
    (hfile : fs s.options.programFilename = .readable bytes) :
    (loadProgram fs a s).result = .ok ()
    ∧ (loadProgram fs a s).state.instructions = a.instructionsAt
    ∧ (loadProgram fs a s).state.instructionCount = bytes.length / 4
    ∧ (∀ i, i < bytes.length / 4 →
        (loadProgram fs a s).state.instructionWord i
          = bytes.getD (4 * i) 0 % 256 + 256 * (bytes.getD (4 * i + 1) 0 % 256)
            + 65536 * (bytes.getD (4 * i + 2) 0 % 256)
            + 16777216 * (bytes.getD (4 * i + 3) 0 % 256))
    ∧ (∀ q, q < a.instructionsAt ∨ a.instructionsAt + 4 * (bytes.length / 4) ≤ q →
        (loadProgram fs a s).state.heap q = s.heap q) := by
  have hE : loadProgram fs a s
      = ⟨{ s with instructionCount := bytes.length / 4, instructions := a.instructionsAt,
                  heap := fileReadLoop 4 s.heap a.instructionsAt bytes (bytes.length / 4) },
          .ok ()⟩ := by
    unfold loadProgram
    rw [if_neg hname, hfile]
    simp only [hsep, if_true]
  obtain ⟨hin, hout⟩ := fileReadLoop_spec 4 s.heap a.instructionsAt bytes (bytes.length / 4)
    (by omega)
  rw [hE]
  refine ⟨rfl, rfl, rfl, ?_, hout⟩
  intro i hi
  have b0 := hin (4 * i) (by omega)
  have b1 := hin (4 * i + 1) (by omega)
  have b2 := hin (4 * i + 2) (by omega)
  have b3 := hin (4 * i + 3) (by omega)
  unfold CPU.instructionWord readWord peek
  simp only [hsep, if_true]
  rw [← Nat.add_assoc] at b1 b2 b3
  simp only [b0, b1, b2, b3, Nat.mod_mod]

/-- C10, amended, at work: a twelve-byte image gives exactly three instruction words. -/
theorem loadProgram_separated_witness :
    (loadProgram twelveByteFiles exampleAllocator unloadedCPU).result = .ok ()
    ∧ (loadProgram twelveByteFiles exampleAllocator unloadedCPU).state.instructionCount = 3
    ∧ (loadProgram twelveByteFiles exampleAllocator unloadedCPU).state.instructionWord 0 = 0x13
    ∧ (loadProgram twelveByteFiles exampleAllocator unloadedCPU).state.instructionWord 1
        = 0x00100093
    ∧ (loadProgram twelveByteFiles exampleAllocator unloadedCPU).state.instructionWord 2
        = 0x6f :=
  have h := loadProgram_separated twelveByteFiles exampleAllocator unloadedCPU
    [0x13, 0, 0, 0, 0x93, 0, 0x10, 0, 0x6f, 0, 0, 0] rfl (by decide) rfl
  ⟨h.1, h.2.2.1, h.2.2.2.1 0 (by decide), h.2.2.2.1 1 (by decide), h.2.2.2.1 2 (by decide)⟩

/-! ## C11: the stepping loop of the simulator against `CPU::tick` -/

/-- A step that returns has passed the guards, the load phase and the store phase. -/
theorem tick_ok_inv {σ : Type} (m : Model σ) (clk : Clock) (s : CPU σ) (b : Bool)
    (hok : (tick m clk s).result = .ok b) :
    ∃ v v1 h, s.vcpu = some v ∧ s.memory ≠ 0
      ∧ (s.options.separateInstructions = true → s.instructions ≠ 0)
      ∧ loadPhase (stampTime clk s) (fetchEval m (stampTime clk s) v) = .ok v1
      ∧ storePhase (stampTime clk s) (clockEdge m v1) = .ok h
      ∧ b = decide ((clockEdge m v1).i_inst ≠ 0x6f)
      ∧ (tick m clk s).state.vcpu = some (clockEdge m v1)
      ∧ (tick m clk s).state.count = s.count + 1
      ∧ (tick m clk s).state.heap = h := by
  cases hv : s.vcpu with
  | none =>
    obtain ⟨⟨e, he⟩, -⟩ := tick_of_guard_failure m clk s (Or.inl hv)
    rw [he] at hok
    cases hok
  | some v =>
    by_cases hmem : s.memory = 0
    · obtain ⟨⟨e, he⟩, -⟩ := tick_of_guard_failure m clk s (Or.inr (Or.inl hmem))
      rw [he] at hok
      cases hok
    · by_cases hg : s.options.separateInstructions = true ∧ s.instructions = 0
      · obtain ⟨⟨e, he⟩, -⟩ := tick_of_guard_failure m clk s (Or.inr (Or.inr hg))
        rw [he] at hok
        cases hok
      · have hins : s.options.separateInstructions = true → s.instructions ≠ 0 :=
          fun hsep hi => hg ⟨hsep, hi⟩
        cases hld : loadPhase (stampTime clk s) (fetchEval m (stampTime clk s) v) with
        | error e =>
          rw [(tick_of_load_error m clk s v e hv hmem hins hld).1] at hok
          cases hok
        | ok v1 =>
          obtain ⟨hvc, -, herr, hgood⟩ := tick_of_load_ok m clk s v v1 hv hmem hins hld
          cases hst : storePhase (stampTime clk s) (clockEdge m v1) with
          | error e =>
            rw [(herr e hst).1] at hok
            cases hok
          | ok h =>
            obtain ⟨hr, hc, hh⟩ := hgood h hst
            rw [hr] at hok
            refine ⟨v, v1, h, rfl, hmem, hins, hld, hst, ?_, hvc, hc, hh⟩
            injection hok with hb
            exact hb.symm

/-- Where the load phase of `CPU::tick` succeeds, the simulator's unchecked load reads the
same word. -/
theorem simLoad_eq {σ : Type} (S : CPU σ) (sim : Sim σ) (v0 v1 : VCPU σ)
    (hmem : S.memory = sim.mem) (hfb : S.framebuffer = sim.fb)
    (hsize : S.options.memorySize = sim.memsize) (hoff : S.options.mmioOffset = sim.offset)
    (h : loadPhase S v0 = .ok v1) : simLoad sim S.heap v0 = .ok v1 := by
  unfold loadPhase at h
  unfold simLoad
  rw [hmem, hfb, hsize, hoff] at h
  simp only [] at h
  by_cases hl : v0.o_load ≠ 0
  · rw [if_pos hl] at h ⊢
    by_cases hm : sim.offset ≤ v0.o_addr
    · rw [if_pos hm] at h
      rw [if_pos hm]
      split at h
      · cases h
      · exact h
    · rw [if_neg hm] at h
      rw [if_neg hm]
      by_cases h0 : sim.memsize = 0
      · rw [if_pos h0] at h
        cases h
      · rw [if_neg h0] at h ⊢
        split at h
        · cases h
        · exact h
  · rw [if_neg hl] at h ⊢
    exact h

/-- Where the store phase of `CPU::tick` succeeds, the simulator's unchecked store writes
the same bytes. -/
theorem simStore_eq {σ : Type} (S : CPU σ) (sim : Sim σ) (v2 : VCPU σ) (heap : Heap)
    (hmem : S.memory = sim.mem) (hfb : S.framebuffer = sim.fb)
    (hoff : S.options.mmioOffset = sim.offset)
    (h : storePhase S v2 = .ok heap) : simStore sim S.heap v2 = heap := by
  unfold storePhase storePointer storeAddress at h
  unfold simStore
  rw [hmem, hfb, hoff] at h
  simp only [ge_iff_le] at h ⊢
  by_cases hw : v2.o_write ≠ 0
  · rw [if_pos hw] at h ⊢
    by_cases h1 : v2.o_memsize = 1
    · rw [if_pos h1] at h ⊢
      by_cases hr : writeRejected S ((if sim.offset ≤ v2.o_addr then sim.fb else sim.mem)
          + if sim.offset ≤ v2.o_addr then v2.o_addr - sim.offset else v2.o_addr) 0 = true
      · rw [if_pos hr] at h
        cases h
      · rw [if_neg hr] at h
        injection h
    · rw [if_neg h1] at h ⊢
      by_cases h2 : v2.o_memsize = 2
      · rw [if_pos h2] at h ⊢
        by_cases hr : writeRejected S ((if sim.offset ≤ v2.o_addr then sim.fb else sim.mem)
            + if sim.offset ≤ v2.o_addr then v2.o_addr - sim.offset else v2.o_addr) 1 = true
        · rw [if_pos hr] at h
          cases h
        · rw [if_neg hr] at h
          injection h
      · rw [if_neg h2] at h ⊢
        by_cases h3 : v2.o_memsize = 3
        · rw [if_pos h3] at h ⊢
          by_cases hr : writeRejected S ((if sim.offset ≤ v2.o_addr then sim.fb else sim.mem)
              + if sim.offset ≤ v2.o_addr then v2.o_addr - sim.offset else v2.o_addr) 3 = true
          · rw [if_pos hr] at h
            cases h
          · rw [if_neg hr] at h
            injection h
        · rw [if_neg h3] at h ⊢
          injection h
  · rw [if_neg hw] at h ⊢
    injection h

/-- The simulator's fetch and first evaluation coincide with those of `CPU::tick`. -/
theorem simFetch_eq {σ : Type} (m : Model σ) (S : CPU σ) (sim : Sim σ)
    (hmem : S.memory = sim.mem) (hinst : S.instructions = sim.inst)
    (hsep : S.options.separateInstructions = !sim.vflag) :
    VCPU.eval m
        (if sim.vflag then
          { { sim.cpu with i_clk := 0 } with
            i_inst := readWord S.heap (sim.mem + 4 * (sim.cpu.o_pc >>> 2)) }
        else
          { { sim.cpu with i_clk := 0 } with
            i_inst := readWord S.heap (sim.inst + 4 * (sim.cpu.o_pc >>> 2)) })
      = fetchEval m S sim.cpu := by
  unfold fetchEval CPU.instructionWord
  rw [hsep, hmem, hinst, Nat.shiftRight_eq_div_pow]
  cases sim.vflag <;> rfl

/-- One pass through the simulator's loop body from the state `CPU::tick` starts from,
when that step returns: the simulator ends where the harness ends. -/
theorem simLoopBody_eq {σ : Type} (m : Model σ) (clk : Clock) (now : Nat) (s : CPU σ)
    (sim : Sim σ) (b : Bool) (hshared : SharedStart s sim)
    (htime : s.options.useTimeOffset = false) (hT : sim.Tflag = false)
    (hok : (tick m clk s).result = .ok b) :
    (simLoopBody m now sim).trap = none
      ∧ some (simLoopBody m now sim).state.cpu = (tick m clk s).state.vcpu
      ∧ (simLoopBody m now sim).state.heap = (tick m clk s).state.heap
      ∧ (simLoopBody m now sim).state.count = (tick m clk s).state.count
      ∧ simLoopCondition (simLoopBody m now sim).state = b
      ∧ (simLoopBody m now sim).state.mem = (tick m clk s).state.memory
      ∧ (simLoopBody m now sim).state.fb = (tick m clk s).state.framebuffer
      ∧ (simLoopBody m now sim).state.inst = (tick m clk s).state.instructions := by
  obtain ⟨hv, hmem, hfb, hinst, hsize, hoff, hsep, hcount, hheap⟩ := hshared
  obtain ⟨v, v1, h, hv2, -, -, hld, hst, hb, hvc, hc, hh⟩ := tick_ok_inv m clk s b hok
  rw [hv] at hv2
  cases hv2
  obtain ⟨sopt, smp, sfp, -, sip, -, -⟩ := stampTime_fields clk s
  have sheap : (stampTime clk s).heap = sim.heap := by
    rw [stampTime_heap clk s htime, hheap]
  obtain ⟨-, tmp, tfp, -, tip⟩ := tick_pointers m clk s
  have hfetch := simFetch_eq m (stampTime clk s) sim (by rw [smp, hmem]) (by rw [sip, hinst])
    (by rw [sopt, hsep])
  have hload := simLoad_eq (stampTime clk s) sim _ v1 (by rw [smp, hmem]) (by rw [sfp, hfb])
    (by rw [sopt, hsize]) (by rw [sopt, hoff]) hld
  have hstore := simStore_eq (stampTime clk s) sim (clockEdge m v1) h (by rw [smp, hmem])
    (by rw [sfp, hfb]) (by rw [sopt, hoff]) hst
  rw [sheap] at hfetch hload hstore
  have hE : simLoopBody m now sim
      = ⟨{ sim with cpu := clockEdge m v1, heap := h, count := sim.count + 1 }, none⟩ := by
    unfold simLoopBody
    simp only [hT, Bool.false_eq_true, if_false]
    rw [hfetch, hload]
    simp only []
    rw [← hstore]
    rfl
  rw [hE, hvc, hh, hc, tmp, tfp, tip, hcount, hmem, hfb, hinst]
  refine ⟨rfl, rfl, rfl, rfl, ?_, rfl, rfl, rfl⟩
  rw [hb]
  unfold simLoopCondition
  by_cases hi : (clockEdge m v1).i_inst = 0x6f
  · simp [hi]
  · simp [hi]

/-! ### A core that logs its evaluations behaves as the core it wraps -/

theorem eval_recording {σ : Type} (m : Model σ) (V : VCPU (σ × List (VCPU σ))) :
    (VCPU.eval (recording m) V).unlogged = VCPU.eval m V.unlogged :=
  rfl

theorem fetchEval_recording {σ : Type} (m : Model σ) (S : CPU σ)
    (V : VCPU (σ × List (VCPU σ))) :
    (fetchEval (recording m) S.recorded V).unlogged = fetchEval m S V.unlogged :=
  rfl

theorem clockEdge_recording {σ : Type} (m : Model σ) (V : VCPU (σ × List (VCPU σ))) :
    (clockEdge (recording m) V).unlogged = clockEdge m V.unlogged :=
  rfl

theorem storePhase_recorded {σ : Type} (S : CPU σ) (V : VCPU (σ × List (VCPU σ))) :
    storePhase S.recorded V = storePhase S V.unlogged :=
  rfl

theorem stampTime_recorded {σ : Type} (clk : Clock) (s : CPU σ) :
    stampTime clk s.recorded = (stampTime clk s).recorded := by
  unfold stampTime
  by_cases h0 : s.start = 0 <;> by_cases ht : s.options.useTimeOffset = true
  all_goals simp [CPU.recorded, h0, ht]

theorem loadPhase_recorded {σ : Type} (S : CPU σ) (V : VCPU (σ × List (VCPU σ))) :
    (∀ e, loadPhase S.recorded V = .error e → loadPhase S V.unlogged = .error e)
    ∧ (∀ V1, loadPhase S.recorded V = .ok V1 → loadPhase S V.unlogged = .ok V1.unlogged) := by
  have hl : V.unlogged.o_load = V.o_load := rfl
  have ha : V.unlogged.o_addr = V.o_addr := rfl
  have hopt : S.recorded.options = S.options := rfl
  have hfb : S.recorded.framebuffer = S.framebuffer := rfl
  have hfs : S.recorded.framebufferSize = S.framebufferSize := rfl
  have hmp : S.recorded.memory = S.memory := rfl
  have hhp : S.recorded.heap = S.heap := rfl
  unfold loadPhase
  rw [hl, ha, hopt, hfb, hfs, hmp, hhp]
  simp only []
  by_cases hload : V.o_load ≠ 0
  · rw [if_pos hload, if_pos hload]
    by_cases hm : S.options.mmioOffset ≤ V.o_addr
    · rw [if_pos hm, if_pos hm]
      by_cases hr : ¬ (0 ≤ V.o_addr - S.options.mmioOffset
          ∧ V.o_addr - S.options.mmioOffset + 3 < S.framebufferSize)
      · rw [if_pos hr, if_pos hr]
        exact ⟨fun e he => (by cases he; rfl), fun V1 h1 => (by cases h1)⟩
      · rw [if_neg hr, if_neg hr]
        exact ⟨fun e he => (by cases he), fun V1 h1 => (by cases h1; rfl)⟩
    · rw [if_neg hm, if_neg hm]
      by_cases h0 : S.options.memorySize = 0
      · rw [if_pos h0, if_pos h0]
        exact ⟨fun e he => (by cases he; rfl), fun V1 h1 => (by cases h1)⟩
      · rw [if_neg h0, if_neg h0]
        by_cases hr : ¬ (0 ≤ V.o_addr % S.options.memorySize
            ∧ V.o_addr % S.options.memorySize + 3 < S.options.memorySize)
        · rw [if_pos hr, if_pos hr]
          exact ⟨fun e he => (by cases he; rfl), fun V1 h1 => (by cases h1)⟩
        · rw [if_neg hr, if_neg hr]
          exact ⟨fun e he => (by cases he), fun V1 h1 => (by cases h1; rfl)⟩
  · rw [if_neg hload, if_neg hload]
    exact ⟨fun e he => (by cases he), fun V1 h1 => (by cases h1; rfl)⟩

/-- A step of the harness around the logging core ends as the step around the core it
wraps. -/
theorem tick_recording {σ : Type} (m : Model σ) (clk : Clock) (s : CPU σ) :
    (tick (recording m) clk s.recorded).result = (tick m clk s).result := by
  cases hv : s.vcpu with
  | none => simp [tick, CPU.recorded, hv]
  | some v =>
    have hvR : s.recorded.vcpu = some (v.withInternal (v.internal, [])) := by
      simp [CPU.recorded, hv]
    by_cases hmem : s.memory = 0
    · have hmemR : s.recorded.memory = 0 := hmem
      simp [tick, hv, hvR, hmem, hmemR]
    · have hmemR : s.recorded.memory ≠ 0 := hmem
      by_cases hg : s.options.separateInstructions = true ∧ s.instructions = 0
      · have hoptR : s.recorded.options = s.options := rfl
        have hinsR : s.recorded.instructions = s.instructions := rfl
        simp [tick, hv, hvR, hmem, hmemR, hoptR, hinsR, hg.1, hg.2]
      · have hins : s.options.separateInstructions = true → s.instructions ≠ 0 :=
          fun hsep hi => hg ⟨hsep, hi⟩
        have hinsR : s.recorded.options.separateInstructions = true →
            s.recorded.instructions ≠ 0 := hins
        have hfe : (fetchEval (recording m) (stampTime clk s).recorded
            (v.withInternal (v.internal, []))).unlogged = fetchEval m (stampTime clk s) v := rfl
        cases hld : loadPhase (stampTime clk s.recorded)
            (fetchEval (recording m) (stampTime clk s.recorded)
              (v.withInternal (v.internal, []))) with
        | error e =>
          rw [(tick_of_load_error (recording m) clk s.recorded _ e hvR hmemR hinsR hld).1]
          rw [stampTime_recorded] at hld
          have h2 := (loadPhase_recorded (stampTime clk s) _).1 e hld
          rw [hfe] at h2
          rw [(tick_of_load_error m clk s v e hv hmem hins h2).1]
        | ok V1 =>
          obtain ⟨-, -, herrR, hokR⟩ :=
            tick_of_load_ok (recording m) clk s.recorded _ V1 hvR hmemR hinsR hld
          rw [stampTime_recorded] at hld herrR hokR
          have h2 := (loadPhase_recorded (stampTime clk s) _).2 V1 hld
          rw [hfe] at h2
          obtain ⟨-, -, herr, hok⟩ := tick_of_load_ok m clk s v V1.unlogged hv hmem hins h2
          have hst : storePhase (stampTime clk s).recorded (clockEdge (recording m) V1)
              = storePhase (stampTime clk s) (clockEdge m V1.unlogged) := rfl
          cases hs : storePhase (stampTime clk s) (clockEdge m V1.unlogged) with
          | error e =>
            rw [(herr e hs).1, (herrR e (hst.trans hs)).1]
          | ok h =>
            rw [(hok h hs).1, (hokR h (hst.trans hs)).1]
            rfl

/-- C11.  For every core model, every configuration without a time offset and every
starting state shared by the harness and the simulator (the core object with its pins,
Memory, Framebuffer and instruction source at the same addresses with the same contents,
the cycle count): if `CPU::tick` completes without raising, one pass through the body of
the simulator's stepping loop runs to its end and performs the same sequence of core
evaluations, leaves the same core object (input pins, outputs and internals), the same
address space, so the same Memory and Framebuffer, and the same cycle count as
`CPU::tick`; and the loop condition evaluated next is false exactly when `tick` returned
`false`. -/
theorem sim_loop_refines_tick {σ : Type} (m : Model σ) (clk : Clock) (now : Nat) (s : CPU σ)
    (sim : Sim σ) (b : Bool) (hshared : SharedStart s sim)
    (htime : s.options.useTimeOffset = false) (hT : sim.Tflag = false)
    (hok : (tick m clk s).result = .ok b) :
    (simLoopBody m now sim).trap = none
    ∧ simEvaluations m now sim = tickEvaluations m clk s
    ∧ some (simLoopBody m now sim).state.cpu = (tick m clk s).state.vcpu
    ∧ (simLoopBody m now sim).state.heap = (tick m clk s).state.heap
    ∧ (∀ i, peek (simLoopBody m now sim).state.heap ((simLoopBody m now sim).state.mem + i)
          = (tick m clk s).state.memoryByte i)
    ∧ (∀ i, peek (simLoopBody m now sim).state.heap ((simLoopBody m now sim).state.fb + i)
          = (tick m clk s).state.framebufferByte i)
    ∧ (simLoopBody m now sim).state.count = (tick m clk s).state.count
    ∧ (simLoopCondition (simLoopBody m now sim).state = false ↔ b = false) := by
  obtain ⟨h1, h2, h3, h4, h5, h6, h7, -⟩ := simLoopBody_eq m clk now s sim b hshared htime hT hok
  have hsharedR : SharedStart s.recorded sim.recorded := by
    obtain ⟨hv, hmem, hfb, hinst, hsize, hoff, hsep, hcount, hheap⟩ := hshared
    refine ⟨?_, hmem, hfb, hinst, hsize, hoff, hsep, hcount, hheap⟩
    simp [CPU.recorded, Sim.recorded, hv]
  have hokR : (tick (recording m) clk s.recorded).result = .ok b := by
    rw [tick_recording, hok]
  have hR := (simLoopBody_eq (recording m) clk now s.recorded sim.recorded b hsharedR htime hT
    hokR).2.1
  refine ⟨h1, ?_, h2, h3, ?_, ?_, h4, ?_⟩
  · unfold simEvaluations tickEvaluations
    rw [← hR]
  · intro i
    unfold CPU.memoryByte
    rw [h3, h6]
  · intro i
    unfold CPU.framebufferByte
    rw [h3, h7]
  · rw [h5]

/-- C11 at work: started on the same state, with a core that stores `0xDEADBEEF` at
`mmioOffset`, the simulator's loop body and `CPU::tick` evaluate the core on the same
three objects and leave the same bytes and the same cycle count; `tick` returns `true`
and the loop goes on. -/
theorem sim_loop_refines_tick_witness :
    (simLoopBody scripted 0 (exampleSim deadbeefScript)).trap = none
    ∧ simEvaluations scripted 0 (exampleSim deadbeefScript)
        = tickEvaluations scripted exampleClock (exampleCPU deadbeefScript)
    ∧ (simEvaluations scripted 0 (exampleSim deadbeefScript)).map VCPU.i_clk = [0, 0, 1]
    ∧ (simLoopBody scripted 0 (exampleSim deadbeefScript)).state.count
        = (tick scripted exampleClock (exampleCPU deadbeefScript)).state.count
    ∧ (simLoopBody scripted 0 (exampleSim deadbeefScript)).state.count = 1
    ∧ (simLoopCondition (simLoopBody scripted 0 (exampleSim deadbeefScript)).state = false
        ↔ true = false) :=
  have h := sim_loop_refines_tick scripted exampleClock 0 (exampleCPU deadbeefScript)
    (exampleSim deadbeefScript) true ⟨rfl, rfl, rfl, rfl, rfl, rfl, rfl, rfl, rfl⟩ rfl rfl rfl
  ⟨h.1, h.2.1, rfl, h.2.2.2.2.2.2.1, rfl, h.2.2.2.2.2.2.2⟩

/-! ## C2: a store in one step, the load in the next -/

/-- The time stamp of a step changes no byte outside its four bytes. -/
theorem stampTime_heap_outside {σ : Type} (clk : Clock) (s : CPU σ) (q : Nat)
    (h : s.options.useTimeOffset = false
      ∨ q < Int.toNat (s.memory + s.options.timeOffset)
      ∨ Int.toNat (s.memory + s.options.timeOffset) + 4 ≤ q) :
    (stampTime clk s).heap q = s.heap q := by
  by_cases ht : s.options.useTimeOffset = true
  · have hq : q < Int.toNat (s.memory + s.options.timeOffset)
        ∨ Int.toNat (s.memory + s.options.timeOffset) + 4 ≤ q := by
      rcases h with h | h
      · rw [ht] at h; cases h
      · exact h
    unfold stampTime
    by_cases h0 : s.start = 0
    · simp only [h0, ht, if_true]
      exact memcpyFromWord_outside _ _ _ _ _ hq
    · simp only [h0, ht, if_true, if_false]
      exact memcpyFromWord_outside _ _ _ _ _ hq
  · have hf : s.options.useTimeOffset = false := by
      cases hb : s.options.useTimeOffset
      · rfl
      · exact absurd hb ht
    rw [stampTime_heap clk s hf]

/-- The load phase on a load request whose four bytes lie within the store the address
selects. -/
theorem loadPhase_in_range {σ : Type} (S : CPU σ) (v : VCPU σ) (hl : v.o_load ≠ 0)
    (hrange : if S.options.mmioOffset ≤ v.o_addr
        then v.o_addr - S.options.mmioOffset + 4 ≤ S.framebufferSize
        else v.o_addr + 4 ≤ S.options.memorySize) :
    loadPhase S v
      = .ok { v with i_mem := readWord S.heap (storePointer S v + storeAddress S v) } := by
  unfold loadPhase storePointer storeAddress
  by_cases hm : S.options.mmioOffset ≤ v.o_addr
  · simp only [hm, if_true] at hrange
    have h3 : v.o_addr - S.options.mmioOffset + 3 < S.framebufferSize := by omega
    have hp : S.framebuffer + v.o_addr - S.options.mmioOffset
        = S.framebuffer + (v.o_addr - S.options.mmioOffset) := by omega
    simp [hl, hm, h3, hp]
  · simp only [hm, if_false] at hrange
    have h0 : S.options.memorySize ≠ 0 := by omega
    have hmod : v.o_addr % S.options.memorySize = v.o_addr := Nat.mod_eq_of_lt (by omega)
    have h3 : v.o_addr + 3 < S.options.memorySize := by omega
    simp [hl, hm, h0, hmod, h3]

/-- C2, as stated, fails, in four ways; each runs `CPU::tick` for the store and again for
the load.  (a) At `a = 15 < memorySize = 16` a one-byte store of `0x41` succeeds, and the
load at 15 in the next step is out of range.  (b) At `a = 0` a one-byte store of `0x41`
next to a byte `0xFF` is followed by a load that returns `0xFF41`: the load phase always
reads four bytes.  (c) With `mmioOffset = 8` below `memorySize = 16` the address
`a = 8 < memorySize` is not routed to Memory, and the store is out of range.  (d) With the
time stamp configured at byte 4 of Memory, the word `0xDEADBEEF` stored at `a = 4` is
overwritten by the stamp of the next step before its load, which returns the clock
reading 1001. -/
theorem tick_round_trip_fails :
    ((tick scripted exampleClock (exampleCPU lastByteScript)).result = .ok true
      ∧ (tick scripted exampleClock
          (tick scripted exampleClock (exampleCPU lastByteScript)).state).result
          = .error (.memoryReadOutOfRange 0x1000F))
    ∧ ((tick scripted exampleClock (dirtyCPU firstByteScript)).result = .ok true
      ∧ (tick scripted exampleClock
          (tick scripted exampleClock (dirtyCPU firstByteScript)).state).state.vcpu.map
            VCPU.i_mem = some 0xFF41)
    ∧ ((overlappingCPU wordAtEightScript).options.mmioOffset = 8
      ∧ (overlappingCPU wordAtEightScript).options.memorySize = 16
      ∧ (tick scripted exampleClock (overlappingCPU wordAtEightScript)).result
          = .error (.writeOutOfRange 4 0))
    ∧ ((tick scripted exampleClock (stampedCPU 4 roundTripScript)).result = .ok true
      ∧ (tick scripted exampleClock (stampedCPU 4 roundTripScript)).state.memoryByte 4 = 0xEF
      ∧ (tick scripted exampleClock
          (tick scripted exampleClock (stampedCPU 4 roundTripScript)).state).state.vcpu.map
            VCPU.i_mem = some 1001) :=
  ⟨⟨rfl, rfl⟩, ⟨rfl, rfl⟩, ⟨rfl, rfl, rfl⟩, ⟨rfl, rfl, rfl⟩⟩

/-- C2, amended.  Take a step of `CPU::tick` whose store phase stores the value `o_mem`
with width code 1, 2 or 3 (`w` = 1, 2 or 4 bytes) at an address `a` with `a < mmioOffset`
and `a + 4 <= memorySize` (Memory) or `a >= mmioOffset` and
`a - mmioOffset + 4 <= framebufferSize` (Framebuffer), and the next step, in which the
core requests a load at `a`.  If no time offset is configured, or the time stamp lies
inside Memory and shares no byte with the four bytes at `a`, then the first step returns,
the load phase of the second step succeeds, and it feeds the memory-read input the word
whose low `w` bytes are those of the value stored and whose other bytes are the ones
that were there when the store was performed; after a 4-byte store this is the value
(its low 32 bits). -/
theorem tick_store_then_load {σ : Type} (m : Model σ) (clk1 clk2 : Clock) (s : CPU σ)
    (v v1 : VCPU σ) (hv : s.vcpu = some v) (hmem : s.memory ≠ 0)
    (hins : s.options.separateInstructions = true → s.instructions ≠ 0)
    (hload : loadPhase (stampTime clk1 s) (fetchEval m (stampTime clk1 s) v) = .ok v1)
    (hwrite : (clockEdge m v1).o_write ≠ 0)
    (hcode : (clockEdge m v1).o_memsize = 1 ∨ (clockEdge m v1).o_memsize = 2
      ∨ (clockEdge m v1).o_memsize = 3)
    (hrange : if s.options.mmioOffset ≤ (clockEdge m v1).o_addr
        then (clockEdge m v1).o_addr - s.options.mmioOffset + 4 ≤ s.framebufferSize
        else (clockEdge m v1).o_addr + 4 ≤ s.options.memorySize)
    (hl : (fetchEval m (stampTime clk2 (tick m clk1 s).state) (clockEdge m v1)).o_load ≠ 0)
    (ha : (fetchEval m (stampTime clk2 (tick m clk1 s).state) (clockEdge m v1)).o_addr
      = (clockEdge m v1).o_addr)
    (hstamp : StampClearOf s (storePointer s (clockEdge m v1) + storeAddress s (clockEdge m v1))) :
    (tick m clk1 s).result = .ok (decide ((clockEdge m v1).i_inst ≠ 0x6f))
    ∧ (tick m clk1 s).state.vcpu = some (clockEdge m v1)
    ∧ (∃ v3, loadPhase (stampTime clk2 (tick m clk1 s).state)
          (fetchEval m (stampTime clk2 (tick m clk1 s).state) (clockEdge m v1)) = .ok v3)
    ∧ (tick m clk2 (tick m clk1 s).state).state.vcpu.map VCPU.i_mem
        = some ((clockEdge m v1).o_mem % 256 ^ storeWidth (clockEdge m v1).o_memsize
            + 256 ^ storeWidth (clockEdge m v1).o_memsize
              * (readWord (stampTime clk1 s).heap
                    (storePointer s (clockEdge m v1) + storeAddress s (clockEdge m v1))
                  / 256 ^ storeWidth (clockEdge m v1).o_memsize))
    ∧ ((clockEdge m v1).o_memsize = 3 →
        (tick m clk2 (tick m clk1 s).state).state.vcpu.map VCPU.i_mem
          = some ((clockEdge m v1).o_mem % 2 ^ 32)) := by
  obtain ⟨sopt, smp, sfp, sfs, -, -, -⟩ := stampTime_fields clk1 s
  obtain ⟨topt, tmp, tfp, tfs, tip⟩ := tick_pointers m clk1 s
  obtain ⟨uopt, ump, ufp, ufs, -, -, -⟩ := stampTime_fields clk2 (tick m clk1 s).state
  have hwd := storeWidth_pos _ hcode
  -- the address the store phase writes at, in terms of the starting state
  have hP1 : storePointer (stampTime clk1 s) (clockEdge m v1)
      + storeAddress (stampTime clk1 s) (clockEdge m v1)
      = storePointer s (clockEdge m v1) + storeAddress s (clockEdge m v1) := by
    unfold storePointer storeAddress
    rw [sopt, smp, sfp]
  -- the first step: the store is within its target
  have hT : StoreInTarget (stampTime clk1 s) (clockEdge m v1) := by
    unfold StoreInTarget storeAddress
    rw [sopt, sfs]
    by_cases hm : s.options.mmioOffset ≤ (clockEdge m v1).o_addr
    · simp only [hm, if_true] at hrange ⊢
      omega
    · simp only [hm, if_false] at hrange ⊢
      omega
  have hst := (storePhase_spec (stampTime clk1 s) (clockEdge m v1) hwrite hcode).2 (Or.inl hT)
  rw [hP1] at hst
  obtain ⟨hvc, -, -, hgood⟩ := tick_of_load_ok m clk1 s v v1 hv hmem hins hload
  obtain ⟨hres, -, hheap⟩ := hgood _ hst
  -- the second step
  have hmem2 : (tick m clk1 s).state.memory ≠ 0 := by rw [tmp]; exact hmem
  have hins2 : (tick m clk1 s).state.options.separateInstructions = true →
      (tick m clk1 s).state.instructions ≠ 0 := by
    rw [topt, tip]; exact hins
  have hrange2 : if (stampTime clk2 (tick m clk1 s).state).options.mmioOffset
        ≤ (fetchEval m (stampTime clk2 (tick m clk1 s).state) (clockEdge m v1)).o_addr
      then (fetchEval m (stampTime clk2 (tick m clk1 s).state) (clockEdge m v1)).o_addr
          - (stampTime clk2 (tick m clk1 s).state).options.mmioOffset + 4
          ≤ (stampTime clk2 (tick m clk1 s).state).framebufferSize
      else (fetchEval m (stampTime clk2 (tick m clk1 s).state) (clockEdge m v1)).o_addr + 4
          ≤ (stampTime clk2 (tick m clk1 s).state).options.memorySize := by
    rw [ha, uopt, ufs, topt, tfs]
    exact hrange
  have hld2 := loadPhase_in_range (stampTime clk2 (tick m clk1 s).state)
    (fetchEval m (stampTime clk2 (tick m clk1 s).state) (clockEdge m v1)) hl hrange2
  have hP2 : storePointer (stampTime clk2 (tick m clk1 s).state)
        (fetchEval m (stampTime clk2 (tick m clk1 s).state) (clockEdge m v1))
      + storeAddress (stampTime clk2 (tick m clk1 s).state)
        (fetchEval m (stampTime clk2 (tick m clk1 s).state) (clockEdge m v1))
      = storePointer s (clockEdge m v1) + storeAddress s (clockEdge m v1) := by
    unfold storePointer storeAddress
    rw [ha, uopt, ump, ufp, topt, tmp, tfp]
  rw [hP2] at hld2
  -- the stamp of the second step leaves the four bytes alone
  have hbytes : ∀ k, k < 4 →
      (stampTime clk2 (tick m clk1 s).state).heap
          (storePointer s (clockEdge m v1) + storeAddress s (clockEdge m v1) + k)
        = memcpyFromWord (stampTime clk1 s).heap
            (storePointer s (clockEdge m v1) + storeAddress s (clockEdge m v1))
            (clockEdge m v1).o_mem (storeWidth (clockEdge m v1).o_memsize)
            (storePointer s (clockEdge m v1) + storeAddress s (clockEdge m v1) + k) := by
    intro k hk
    rw [stampTime_heap_outside clk2 (tick m clk1 s).state _ ?_, hheap]
    rw [topt, tmp]
    rcases hstamp with h | ⟨-, -, h⟩
    · exact Or.inl h
    · right
      omega
  have hword := readWord_congr _ _ _ hbytes
  rw [hword, readWord_memcpyFromWord_width _ _ _ _ hwd] at hld2
  have hvcpu2 := (tick_of_load_ok m clk2 (tick m clk1 s).state (clockEdge m v1) _ hvc hmem2
    hins2 hld2).1
  have hmem3 : (tick m clk2 (tick m clk1 s).state).state.vcpu.map VCPU.i_mem
      = some ((clockEdge m v1).o_mem % 256 ^ storeWidth (clockEdge m v1).o_memsize
          + 256 ^ storeWidth (clockEdge m v1).o_memsize
            * (readWord (stampTime clk1 s).heap
                  (storePointer s (clockEdge m v1) + storeAddress s (clockEdge m v1))
                / 256 ^ storeWidth (clockEdge m v1).o_memsize)) := by
    rw [hvcpu2]
    rfl
  refine ⟨hres, hvc, ⟨_, hld2⟩, hmem3, ?_⟩
  intro h3
  rw [hmem3, ← readWord_memcpyFromWord_width _ _ _ _ hwd, h3]
  exact congrArg some (readWord_memcpyFromWord _ _ _)

/-- C2, amended, at work: with the time stamp configured at byte 8 of Memory, the word
`0xDEADBEEF` stored at address 4 in one step is read back by the load of the next step. -/
theorem tick_store_then_load_witness :
    (tick scripted exampleClock
        (tick scripted exampleClock (stampedCPU 8 roundTripScript)).state).state.vcpu.map
          VCPU.i_mem = some 0xDEADBEEF :=
  (tick_store_then_load scripted exampleClock exampleClock (stampedCPU 8 roundTripScript)
    (VCPU.zero roundTripScript)
    (fetchEval scripted (stampTime exampleClock (stampedCPU 8 roundTripScript))
      (VCPU.zero roundTripScript))
    rfl (by decide) (by decide) rfl (by decide) (by decide) (by decide) (by decide) rfl
    (by decide)).2.2.2.2 rfl

end RVGUI
